import Mathlib

/-! Playlist engine (src/playlist/engine.c)

A shallow embedding of the playlist engine: the control loop
`playlist_MainLoop`, the deferred destroyer `ObjectGarbageCollector`, and the
two preparse workers `playlist_PreparseLoop` and
`playlist_SecondaryPreparseLoop`.

The C code is translated statement by statement into functions on an explicit
machine state `World`.  Every call that leaves the file (mutex operations,
the input, object-tree, preparse and variable functions) is appended to
`World.trace` together with the locks the running thread holds and the value
of `p_playlist->p_input` at the moment of the call.
-/

namespace Playlist

/-! ## Machine integers -/

/-- Two's complement value of a C `int` (32 bit). -/
def wrap32 (x : Int) : Int := (x + 2147483648) % 4294967296 - 2147483648

/-- Two's complement value of an `mtime_t` (`int64_t`). -/
def wrap64 (x : Int) : Int :=
  (x + 9223372036854775808) % 18446744073709551616 - 9223372036854775808

/-! ## Data model -/

/-- Object types of the VLC object tree (`i_object_type`). -/
inductive ObjType where
  | VLC_OBJECT_VOUT
  | VLC_OBJECT_SOUT
  | VLC_OBJECT_INPUT
  | VLC_OBJECT_OTHER (n : Nat)
  deriving DecidableEq, Repr

/-- The common members of a VLC object that the engine reads: its identity
(the address), its type and its parent pointer (the identity of the parent). -/
structure vlc_object_t where
  i_object_id : Nat
  i_object_type : ObjType
  p_parent : Nat
  deriving DecidableEq, Repr

/-- Modelled from the spec: the declaration of the input states is missing
(`vlc_input.h`); the engine only tests `i_state != INIT_S` (Initializing). -/
inductive input_state_e where
  | INIT_S
  | OPENING_S
  | BUFFERING_S
  | PLAYING_S
  | PAUSE_S
  | END_S
  | ERROR_S
  deriving DecidableEq, Repr

/-- The playback session (`input_thread_t`) as the engine observes it. -/
structure input_thread_t where
  obj : vlc_object_t
  b_dead : Bool
  b_die : Bool
  b_error : Bool
  b_eof : Bool
  i_state : input_state_e
  deriving DecidableEq, Repr

/-- Modelled from the spec: `status: {Stopped, Running}`; the declaration of
`playlist_status_t` is missing and the engine only tests
`!= PLAYLIST_STOPPED`. -/
inductive playlist_status_t where
  | PLAYLIST_STOPPED
  | PLAYLIST_RUNNING
  deriving DecidableEq, Repr

/-- A playlist item (`playlist_item_t`); only its flags are read. -/
structure playlist_item_t where
  i_flags : Nat
  deriving DecidableEq, Repr

/-- An input item (`input_item_t`) under enrichment: its id, its URI (the
characters of the NUL-terminated `psz_uri`) and `p_meta->i_status`. -/
structure input_item_t where
  i_id : Int
  psz_uri : List Char
  i_status : Nat
  deriving DecidableEq, Repr

/-- An element of the secondary queue (`preparse_item_t`); `none` is NULL. -/
structure preparse_item_t where
  p_item : Option Nat
  b_fetch_art : Bool
  deriving DecidableEq, Repr

/-- The field `p_playlist->status`. -/
structure status_t where
  i_status : playlist_status_t
  p_item : Option Nat
  deriving DecidableEq, Repr

/-- The field `p_playlist->request`. -/
structure request_t where
  b_request : Bool
  i_status : playlist_status_t
  p_item : Option Nat
  deriving DecidableEq, Repr

/-- The engine (`playlist_t`): the fields the four functions read or write.
Pointers to items are addresses (`Nat`), `none` is NULL.  `activity` and
`play_and_exit` are the object variables of these names; `pp_waiting` is the
queue of `p_playlist->p_preparse`, `p_waiting` the queue of
`p_playlist->p_secondary_preparse`. -/
structure playlist_t where
  i_object_id : Nat
  p_input : Option input_thread_t
  status : status_t
  request : request_t
  i_vout_destroyed_date : Int
  i_sout_destroyed_date : Int
  activity : Int
  play_and_exit : Bool
  pp_waiting : List (Option Nat)
  p_waiting : List preparse_item_t
  deriving DecidableEq, Repr

/-- The four mutexes of the file. -/
inductive Mutex where
  | object_lock
  | gc_lock
  | preparse_lock
  | secondary_lock
  deriving DecidableEq, Repr

/-- Which mutexes the running thread holds. -/
structure Locks where
  object_lock : Bool
  gc_lock : Bool
  preparse_lock : Bool
  secondary_lock : Bool
  deriving DecidableEq, Repr

/-- No mutex held. -/
def Locks.free : Locks := ⟨false, false, false, false⟩

/-- Update of one mutex. -/
def Locks.set (l : Locks) (m : Mutex) (b : Bool) : Locks :=
  match m with
  | .object_lock => { l with object_lock := b }
  | .gc_lock => { l with gc_lock := b }
  | .preparse_lock => { l with preparse_lock := b }
  | .secondary_lock => { l with secondary_lock := b }

/-- State of one mutex. -/
def Locks.get (l : Locks) (m : Mutex) : Bool :=
  match m with
  | .object_lock => l.object_lock
  | .gc_lock => l.gc_lock
  | .preparse_lock => l.preparse_lock
  | .secondary_lock => l.secondary_lock

/-- The calls that leave the file. -/
inductive Call where
  | vlc_mutex_lock (m : Mutex)
  | vlc_mutex_unlock (m : Mutex)
  | input_StopThread (p_input : input_thread_t)
  | input_DestroyThread (p_input : input_thread_t)
  | vlc_object_detach (p_obj : vlc_object_t)
  | vlc_object_release (p_obj : vlc_object_t)
  | vlc_object_destroy (p_obj : vlc_object_t)
  | vout_Destroy (p_obj : vlc_object_t)
  | sout_DeleteInstance (p_obj : vlc_object_t)
  | playlist_ItemDelete (p_item : Nat)
  | playlist_NextItem
  | playlist_PlayItem (p_item : Nat)
  | var_SetInteger_activity (v : Int)
  | var_SetInteger_item_change (v : Int)
  | stats_TimerStart
  | stats_TimerStop
  | input_Preparse (p_item : Nat)
  | input_MetaFetch (p_item : Nat)
  | input_ArtFetch (p_item : Nat)
  | vlc_gc_decref (p_item : Nat)
  | msleep (delay : Int)
  deriving DecidableEq, Repr

/-- The blocking external calls: the session destroy, the two resource
destructors, parse, metadata fetch, art fetch and the sleep between polls. -/
def Call.blocking : Call → Bool
  | .input_DestroyThread _ => true
  | .vout_Destroy _ => true
  | .sout_DeleteInstance _ => true
  | .input_Preparse _ => true
  | .input_MetaFetch _ => true
  | .input_ArtFetch _ => true
  | .msleep _ => true
  | _ => false

/-- One entry of the trace: the call, the mutexes held and the value of
`p_playlist->p_input` when the call is made. -/
structure Obs where
  call : Call
  held : Locks
  p_input : Option input_thread_t
  deriving DecidableEq, Repr

/-- The machine state.  `objects` are the objects below the engine in the
object tree, in the order in which a `FIND_CHILD` search visits them (each
object is followed by its own descendants); `items` and `playlist_items` are
the memory behind item pointers; `now` is the value the next `mdate()`
returns (microseconds, never negative) and `ticks` the microseconds that pass
after each reading. -/
structure World where
  pl : playlist_t
  locks : Locks
  objects : List vlc_object_t
  items : Nat → input_item_t
  playlist_items : Nat → playlist_item_t
  now : Nat
  ticks : List Nat
  libvlc_b_die : Bool
  trace : List Obs

/-- The collaborators and constants that are declared outside the file.

Modelled from the spec: `input_StopThread` is `request_stop(SessionHandle)`
(non-blocking; what it does to the flags of the session is left open),
`playlist_NextItem` is `next_entry() -> Option<EntryRef>`,
`playlist_PlayItem` "begins playing the fetched entry" (any change of the
engine fields), `input_Preparse`, `input_MetaFetch` and `input_ArtFetch` are
the best-effort steps that may rewrite the item.  The flag constants and
`DEFAULT_INPUT_ACTIVITY` are missing macros. -/
structure Env where
  input_StopThread : input_thread_t → input_thread_t
  playlist_NextItem : playlist_t → Option Nat
  playlist_PlayItem : playlist_t → Nat → playlist_t
  input_Preparse : input_item_t → input_item_t
  input_MetaFetch : input_item_t → input_item_t
  input_ArtFetch : input_item_t → input_item_t
  PLAYLIST_REMOVE_FLAG : Nat
  ITEM_PREPARSED : Nat
  ITEM_META_FETCHED : Nat
  ITEM_ART_FETCHED : Nat
  DEFAULT_INPUT_ACTIVITY : Int

/-- How a function of the file ends: it returns, it dereferences a NULL
pointer (the state reached is kept), or the model runs out of fuel. -/
inductive Run where
  | returned (w : World)
  | fault (w : World)
  | timeout

/-- The state in which a run ended, if it ended. -/
def Run.final : Run → Option World
  | .returned w => some w
  | .fault w => some w
  | .timeout => none

/-! ## Primitives -/

/-- Record a call. -/
def call (c : Call) (w : World) : World :=
  { w with trace := w.trace ++ [⟨c, w.locks, w.pl.p_input⟩] }

/-- The function `vlc_mutex_lock`. -/
def vlc_mutex_lock (m : Mutex) (w : World) : World :=
  let w := call (.vlc_mutex_lock m) w
  { w with locks := w.locks.set m true }

/-- The function `vlc_mutex_unlock`. -/
def vlc_mutex_unlock (m : Mutex) (w : World) : World :=
  let w := call (.vlc_mutex_unlock m) w
  { w with locks := w.locks.set m false }

/-- Modelled from the spec: the macro `PL_LOCK` is missing; it takes the
engine lock. -/
def PL_LOCK (w : World) : World := vlc_mutex_lock .object_lock w

/-- Modelled from the spec: the macro `PL_UNLOCK` is missing; it releases the
engine lock. -/
def PL_UNLOCK (w : World) : World := vlc_mutex_unlock .object_lock w

/-- The clock `mdate()`: returns `now`; the next reading is later by the next
tick. -/
def mdate (w : World) : Int × World :=
  ((w.now : Int), { w with now := w.now + w.ticks.headD 0, ticks := w.ticks.tail })

/-- Modelled from the spec: `strncmp` of the C library is missing.  Compares
at most `n` characters of two NUL-terminated strings (given without the NUL)
and returns zero or the difference at the first mismatch. -/
def strncmp : List Char → List Char → Nat → Int
  | _, _, 0 => 0
  | [], [], _ + 1 => 0
  | [], b :: _, _ + 1 => 0 - (b.toNat : Int)
  | a :: _, [], _ + 1 => (a.toNat : Int)
  | a :: as, b :: bs, n + 1 =>
    if a = b then strncmp as bs n else (a.toNat : Int) - (b.toNat : Int)

/-- Modelled from the spec: `vlc_object_find( p_playlist, i_type, FIND_CHILD )`
is missing (`find_unowned_child(kind) -> Option<ResourceHandle>`): the first
object of the type that the search below the engine meets, whoever owns it. -/
def vlc_object_find (w : World) (i_type : ObjType) : Option vlc_object_t :=
  w.objects.find? (fun o => o.i_object_type = i_type)

/-- The descendants of a removed object at the head of the objects that
follow it: an object belongs to them when its parent is the removed object or
an object already found below it (`ids`); a direct child of `parent` never
does.  The descendants end at the first object that is not one of them. -/
def dropSubtree (parent : Nat) : List Nat → List vlc_object_t → List vlc_object_t
  | _, [] => []
  | ids, x :: xs =>
    if x.p_parent ≠ parent ∧ x.p_parent ∈ ids then
      dropSubtree parent (x.i_object_id :: ids) xs
    else x :: xs

/-- Removal of an object from the objects below `parent`: the object goes, and
with it its descendants, which follow it in the list. -/
def detachFrom (parent : Nat) (p_obj : vlc_object_t) :
    List vlc_object_t → List vlc_object_t
  | [] => []
  | o :: os =>
    if o = p_obj then dropSubtree parent [p_obj.i_object_id] os
    else o :: detachFrom parent p_obj os

/-- Modelled from the spec: `vlc_object_detach` is missing ("unlink from the
ownership tree"); the object and what hangs below it leave the tree below the
engine. -/
def vlc_object_detach (p_obj : vlc_object_t) (w : World) : World :=
  let w := call (.vlc_object_detach p_obj) w
  { w with objects := detachFrom w.pl.i_object_id p_obj w.objects }

/-- Modelled from the spec: `sout_DeleteInstance` is missing; the blocking
destructor of a stream output, which also unlinks it from the ownership
tree. -/
def sout_DeleteInstance (p_obj : vlc_object_t) (w : World) : World :=
  let w := call (.sout_DeleteInstance p_obj) w
  { w with objects := detachFrom w.pl.i_object_id p_obj w.objects }

/-- The call `input_StopThread( p_playlist->p_input )`. -/
def input_StopThread (env : Env) (p_input : input_thread_t) (w : World) : World :=
  let w := call (.input_StopThread p_input) w
  { w with pl.p_input := some (env.input_StopThread p_input) }

/-! ## The garbage collector -/

/-- The `while` loop of `ObjectGarbageCollector` (lines 197-217), one
iteration per unit of fuel; `none` when the fuel runs out.  The `msg_Dbg`
line only logs. -/
def gcLoop : Nat → ObjType → World → Option World
  | 0, _, _ => none
  | fuel + 1, i_type, w =>
    match vlc_object_find w i_type with
    | none => some w
    | some p_obj =>
      if p_obj.p_parent ≠ w.pl.i_object_id then
        -- only first child (ie unused)
        some (call (.vlc_object_release p_obj) w)
      else if i_type = .VLC_OBJECT_VOUT then
        let w := vlc_object_detach p_obj w
        let w := call (.vlc_object_release p_obj) w
        let w := call (.vout_Destroy p_obj) w
        gcLoop fuel i_type w
      else if i_type = .VLC_OBJECT_SOUT then
        let w := call (.vlc_object_release p_obj) w
        let w := sout_DeleteInstance p_obj w
        gcLoop fuel i_type w
      else
        gcLoop fuel i_type w

/-- The function `ObjectGarbageCollector` (lines 182-221): the new destroy
date and the state, `none` when the loop runs out of fuel. -/
def ObjectGarbageCollector (fuel : Nat) (i_type : ObjType) (destroy_date : Int)
    (w : World) : Option (Int × World) :=
  let (t, w) := mdate w
  if destroy_date > t then some (destroy_date, w)
  else if destroy_date = 0 then
    -- give a little time
    let (t, w) := mdate w
    some (wrap64 (t + 1000000), w)
  else
    let w := vlc_mutex_lock .gc_lock w
    match gcLoop fuel i_type w with
    | none => none
    | some w =>
      let w := vlc_mutex_unlock .gc_lock w
      some (0, w)

/-- Continue a run of the control loop with the result of a sweep. -/
def gcThen (r : Option (Int × World)) (k : Int → World → Run) : Run :=
  match r with
  | none => .timeout
  | some (d, w) => k d w

/-! ## The control loop -/

/-- The pending-request check of `playlist_MainLoop` (lines 232-240): stop
the existing input when a request came in. -/
def requestCheck (env : Env) (w : World) : World :=
  if w.pl.request.b_request then
    match w.pl.p_input with
    | some p_input =>
      if !p_input.b_die then input_StopThread env p_input w else w
    | none => w
  else w

/-- The branch of `playlist_MainLoop` for a dead input (lines 248-287),
entered with the engine lock held. -/
def MainLoop_dead (env : Env) (p_input : input_thread_t) (w : World) : Run :=
  let w := { w with pl.p_input := none }
  -- Release the playlist lock, because we may get stuck
  -- in input_DestroyThread() for some time.
  let w := PL_UNLOCK w
  let w := call (.input_DestroyThread p_input) w
  let w := vlc_object_detach p_input.obj w
  let w := call (.vlc_object_destroy p_input.obj) w
  let w := { w with pl.i_vout_destroyed_date := 0 }
  let w := { w with pl.i_sout_destroyed_date := 0 }
  match w.pl.status.p_item with
  | none => .fault w
  | some p_item =>
    let w :=
      if (w.playlist_items p_item).i_flags &&& env.PLAYLIST_REMOVE_FLAG ≠ 0 then
        let w := call (.playlist_ItemDelete p_item) w
        let w :=
          if w.pl.request.p_item = w.pl.status.p_item then
            { w with pl.request.p_item := none }
          else w
        { w with pl.status.p_item := none }
      else w
    let i_activity := w.pl.activity
    let v := wrap32 (i_activity - env.DEFAULT_INPUT_ACTIVITY)
    let w := call (.var_SetInteger_activity v) w
    let w := { w with pl.activity := v }
    .returned w

/-- The branch of `playlist_MainLoop` for a running input (lines 306-313 and
the final unlock of line 368). -/
def MainLoop_running (fuel : Nat) (w : World) : Run :=
  let w := PL_UNLOCK w
  gcThen (ObjectGarbageCollector fuel .VLC_OBJECT_VOUT w.pl.i_vout_destroyed_date w)
    fun d w =>
  let w := { w with pl.i_vout_destroyed_date := d }
  gcThen (ObjectGarbageCollector fuel .VLC_OBJECT_SOUT w.pl.i_sout_destroyed_date w)
    fun d w =>
  let w := { w with pl.i_sout_destroyed_date := d }
  let w := PL_LOCK w
  .returned (PL_UNLOCK w)

/-- The branch of `playlist_MainLoop` that starts a new item (lines 329-347
and the final unlock of line 368). -/
def MainLoop_start (env : Env) (b_playexit : Bool) (w : World) : Run :=
  let w := call .stats_TimerStart w
  let w := call .playlist_NextItem w
  let p_item := env.playlist_NextItem w.pl
  let w := call .stats_TimerStop w
  match p_item with
  | none =>
    -- nothing to play
    let w := if b_playexit = true then { w with libvlc_b_die := true } else w
    let w := { w with pl.status.i_status := .PLAYLIST_STOPPED }
    let w := PL_UNLOCK w
    .returned w
  | some p_item =>
    let w := call (.playlist_PlayItem p_item) w
    let w := { w with pl := env.playlist_PlayItem w.pl p_item }
    .returned (PL_UNLOCK w)

/-- The branch of `playlist_MainLoop` that collects garbage when there is no
input and nothing to start (lines 351-365 and the final unlock of line 368). -/
def MainLoop_idle (env : Env) (fuel : Nat) (w : World) : Run :=
  let w :=
    match w.pl.status.p_item with
    | some p_item =>
      if (w.playlist_items p_item).i_flags &&& env.PLAYLIST_REMOVE_FLAG ≠ 0 then
        let w := call (.playlist_ItemDelete p_item) w
        { w with pl.status.p_item := none }
      else w
    | none => w
  -- Collect garbage
  let w := PL_UNLOCK w
  let (t, w) := mdate w
  gcThen (ObjectGarbageCollector fuel .VLC_OBJECT_SOUT t w) fun d w =>
  let w := { w with pl.i_sout_destroyed_date := d }
  let (t, w) := mdate w
  gcThen (ObjectGarbageCollector fuel .VLC_OBJECT_VOUT t w) fun d w =>
  let w := { w with pl.i_vout_destroyed_date := d }
  let w := PL_LOCK w
  .returned (PL_UNLOCK w)

/-- The function `playlist_MainLoop` (lines 224-369).  The `PL_DEBUG` and
`msg_*` lines only log. -/
def playlist_MainLoop (env : Env) (fuel : Nat) (w : World) : Run :=
  let b_playexit := w.pl.play_and_exit
  let w := PL_LOCK w
  -- First, check if we have something to do
  let w := requestCheck env w
  -- If there is an input, check that it doesn't need to die.
  match w.pl.p_input with
  | some p_input =>
    if p_input.b_dead then
      -- This input is dead. Remove it !
      MainLoop_dead env p_input w
    else if p_input.b_die then
      -- This input is dying, let it do
      .returned (PL_UNLOCK w)
    else if p_input.b_error || p_input.b_eof then
      -- This input has finished, ask it to die !
      let w := input_StopThread env p_input w
      let w := PL_UNLOCK w
      .returned w
    else if p_input.i_state ≠ .INIT_S then
      MainLoop_running fuel w
    else
      .returned (PL_UNLOCK w)
  | none =>
    if (!w.pl.request.b_request && w.pl.status.i_status ≠ .PLAYLIST_STOPPED) ||
        (w.pl.request.b_request && w.pl.request.i_status ≠ .PLAYLIST_STOPPED) then
      MainLoop_start env b_playexit w
    else
      MainLoop_idle env fuel w

/-- Repeated steps of the control loop: `n` calls of `playlist_MainLoop`, one
after the other, as long as each returns. -/
def playlist_MainLoop_steps (env : Env) (fuel : Nat) : Nat → World → Run
  | 0, w => .returned w
  | n + 1, w =>
    match playlist_MainLoop env fuel w with
    | .returned w => playlist_MainLoop_steps env fuel n w
    | r => r

/-! ## The preparse workers -/

/-- The assignment `p_meta->i_status |= flag`. -/
def orStatus (it : input_item_t) (flag : Nat) : input_item_t :=
  { it with i_status := it.i_status ||| flag }

/-- The condition of lines 463-470: none of the eight `strncmp` calls
returns zero. -/
def schemeCheck (psz_uri : List Char) : Bool :=
  strncmp psz_uri "http:".toList 5 ≠ 0 &&
  strncmp psz_uri "rtsp:".toList 5 ≠ 0 &&
  strncmp psz_uri "udp:".toList 4 ≠ 0 &&
  strncmp psz_uri "mms:".toList 4 ≠ 0 &&
  strncmp psz_uri "cdda:".toList 4 ≠ 0 &&
  strncmp psz_uri "dvd:".toList 4 ≠ 0 &&
  strncmp psz_uri "v4l:".toList 4 ≠ 0 &&
  strncmp psz_uri "dshow:".toList 6 ≠ 0

/-- The function `playlist_PreparseLoop` (lines 446-523).  `REMOVE_ELEM` at
index 0 drops the head of the array, `INSERT_ELEM` at index `i_waiting`
appends. -/
def playlist_PreparseLoop (env : Env) (w : World) : World :=
  let w := vlc_mutex_lock .preparse_lock w
  match w.pl.pp_waiting with
  | p_current :: rest =>
    let w := { w with pl.pp_waiting := rest }
    let w := vlc_mutex_unlock .preparse_lock w
    let w := PL_LOCK w
    let w :=
      match p_current with
      | some p =>
        let b_preparsed := schemeCheck (w.items p).psz_uri
        let w :=
          if b_preparsed then
            let w := call .stats_TimerStart w
            let w := PL_UNLOCK w
            let w := call (.input_Preparse p) w
            let w := { w with items := Function.update w.items p (env.input_Preparse (w.items p)) }
            let w := PL_LOCK w
            call .stats_TimerStop w
          else w
        let w := PL_UNLOCK w
        let w :=
          if b_preparsed then
            let it := w.items p
            let w := { w with items := Function.update w.items p (orStatus it env.ITEM_PREPARSED) }
            call (.var_SetInteger_item_change (w.items p).i_id) w
          else w
        let w := PL_LOCK w
        let w := vlc_mutex_lock .secondary_lock w
        let w := { w with pl.p_waiting := w.pl.p_waiting ++ [⟨p_current, false⟩] }
        let w := vlc_mutex_unlock .secondary_lock w
        PL_UNLOCK w
      | none => PL_UNLOCK w
    let w := vlc_mutex_lock .preparse_lock w
    let i_activity := w.pl.activity
    let i_activity := if i_activity < 0 then 0 else i_activity
    let w := vlc_mutex_unlock .preparse_lock w
    call (.msleep (wrap32 (wrap32 (i_activity + 1) * 1000))) w
  | [] => vlc_mutex_unlock .preparse_lock w

/-- The function `playlist_SecondaryPreparseLoop` (lines 526-555). -/
def playlist_SecondaryPreparseLoop (env : Env) (w : World) : World :=
  let w := vlc_mutex_lock .secondary_lock w
  match w.pl.p_waiting with
  | hd :: rest =>
    let b_fetch_art := hd.b_fetch_art
    let p_item := hd.p_item
    let w := { w with pl.p_waiting := rest }
    let w := vlc_mutex_unlock .secondary_lock w
    match p_item with
    | some p =>
      let w := call (.input_MetaFetch p) w
      let w := { w with items := Function.update w.items p (env.input_MetaFetch (w.items p)) }
      let it := w.items p
      let w := { w with items := Function.update w.items p (orStatus it env.ITEM_META_FETCHED) }
      let w :=
        if b_fetch_art = true then
          let w := call (.input_ArtFetch p) w
          let w := { w with items := Function.update w.items p (env.input_ArtFetch (w.items p)) }
          let it := w.items p
          { w with items := Function.update w.items p (orStatus it env.ITEM_ART_FETCHED) }
        else w
      let w := call (.var_SetInteger_item_change (w.items p).i_id) w
      call (.vlc_gc_decref p) w
    | none => PL_UNLOCK w
  | [] => vlc_mutex_unlock .secondary_lock w

/-! ## Vocabulary of the statements -/

/-- The two resource kinds the collector is called with. -/
def IsKind (i_type : ObjType) : Prop :=
  i_type = .VLC_OBJECT_VOUT ∨ i_type = .VLC_OBJECT_SOUT

/-- The calls of one iteration of the sweep loop that destroys `p`. -/
def gcBlock (i_type : ObjType) (p : vlc_object_t) : List Call :=
  if i_type = .VLC_OBJECT_VOUT then
    [.vlc_object_detach p, .vlc_object_release p, .vout_Destroy p]
  else
    [.vlc_object_release p, .sout_DeleteInstance p]

/-- The trace entry of a call made in state `w`. -/
def obsAt (w : World) (c : Call) : Obs := ⟨c, w.locks, w.pl.p_input⟩

/-- What a sweep leaves alone: everything but the object tree, the clock and
the trace. -/
def SameButTree (w w1 : World) : Prop :=
  w1.pl = w.pl ∧ w1.items = w.items ∧
  w1.playlist_items = w.playlist_items ∧ w1.libvlc_b_die = w.libvlc_b_die

/-- What a trace entry of a sweep started in state `w` looks like: the session
pointer is the one of `w`; the entry is the lock of the collector mutex, taken
with the locks of `w`, or a call made with the collector mutex added to the
locks of `w`: its unlock, the release of a found object, or the detachment or
destruction of an object of `w` directly under the engine. -/
def GcObs (w : World) (o : Obs) : Prop :=
  o.p_input = w.pl.p_input ∧
  ((o.call = .vlc_mutex_lock .gc_lock ∧ o.held = w.locks) ∨
   (o.held = w.locks.set .gc_lock true ∧
     (o.call = .vlc_mutex_unlock .gc_lock ∨
      ∃ p : vlc_object_t, o.call = .vlc_object_release p ∨
        (p.p_parent = w.pl.i_object_id ∧ p ∈ w.objects ∧
          (o.call = .vlc_object_detach p ∨ o.call = .vout_Destroy p ∨
            o.call = .sout_DeleteInstance p)))))

/-- The current session as a step of the control loop sees it when it checks
the flags (line 243), that is after the pending-request check. -/
def checkedInput (env : Env) (w : World) : Option input_thread_t :=
  (requestCheck env (PL_LOCK w)).pl.p_input

/-- A start is due: no request and the status is not Stopped, or a request
for a status that is not Stopped (lines 324-327). -/
def startDue (pl : playlist_t) : Prop :=
  (pl.request.b_request = false ∧ pl.status.i_status ≠ .PLAYLIST_STOPPED) ∨
  (pl.request.b_request = true ∧ pl.request.i_status ≠ .PLAYLIST_STOPPED)

/-- The locks `l` are the locks `l0` with the engine lock released (and
possibly the collector mutex released by a sweep). -/
def Unlocked (l0 l : Locks) : Prop :=
  l = l0.set .object_lock false ∨ l = (l0.set .object_lock false).set .gc_lock false

/-- What a trace entry of the garbage-collecting branches of the control loop
looks like, `w` being the state in which the branch is entered: the deletion
of the status item and the release of the engine lock, made with the locks of
`w`; the calls of a sweep entered with the engine lock released; the final
lock and unlock of the engine lock. -/
def SweepObs (w : World) (o : Obs) : Prop :=
  o.p_input = w.pl.p_input ∧
  ((∃ p : Nat, o.call = .playlist_ItemDelete p ∧ o.held = w.locks) ∨
   (o.call = .vlc_mutex_unlock .object_lock ∧ o.held = w.locks) ∨
   (∃ l : Locks, Unlocked w.locks l ∧
     ((o.call = .vlc_mutex_lock .object_lock ∧ o.held = l) ∨
      (o.call = .vlc_mutex_unlock .object_lock ∧ o.held = l.set .object_lock true))) ∨
   (∃ w1 : World, GcObs w1 o ∧ Unlocked w.locks w1.locks ∧
     w1.pl.i_object_id = w.pl.i_object_id ∧ w1.pl.p_input = w.pl.p_input ∧
     w1.objects.Sublist w.objects))

/-- How a garbage-collecting branch of the control loop, entered in state `w`,
ends: it returns; its calls are those of `SweepObs`; session, status, request
and termination flag are as in `w`; the engine lock is released. -/
def SweepResult (w : World) (r : Run) : Prop :=
  ∃ (w1 : World) (evs : List Obs), r = .returned w1 ∧
    w1.trace = w.trace ++ evs ∧ (∀ o ∈ evs, SweepObs w o) ∧
    w1.pl.p_input = w.pl.p_input ∧ w1.pl.status.i_status = w.pl.status.i_status ∧
    w1.pl.request = w.pl.request ∧ w1.libvlc_b_die = w.libvlc_b_die ∧
    Unlocked w.locks w1.locks ∧ w1.objects.Sublist w.objects

/-- The URI has the scheme `s`: it starts with `s` followed by a colon. -/
def uriHasScheme (uri : List Char) (s : String) : Prop :=
  ∃ rest : List Char, uri = s.toList ++ ':' :: rest

/-- The schemes of the exclusion list. -/
def excludedSchemes : List String :=
  ["http", "rtsp", "udp", "mms", "cdda", "dvd", "v4l", "dshow"]

/-- The locks held after a call. -/
def Locks.after (l : Locks) : Call → Locks
  | .vlc_mutex_lock m => l.set m true
  | .vlc_mutex_unlock m => l.set m false
  | _ => l

/-- The trace entries of a sequence of calls made from the locks `l` while
`p_input` does not change. -/
def replay (l : Locks) (p_input : Option input_thread_t) : List Call → List Obs
  | [] => []
  | c :: cs => ⟨c, l, p_input⟩ :: replay (l.after c) p_input cs

/-- The delay of line 519 for the activity `a`. -/
def pollDelay (a : Int) : Int :=
  wrap32 (wrap32 ((if a < 0 then 0 else a) + 1) * 1000)

/-- The calls of a wake-up of the primary worker that pops the non-NULL entry
`p` with id `i_id`: `b` tells whether the parse step runs, `d` is the delay. -/
def preparseCalls (b : Bool) (p : Nat) (i_id : Int) (d : Int) : List Call :=
  [.vlc_mutex_lock .preparse_lock, .vlc_mutex_unlock .preparse_lock,
    .vlc_mutex_lock .object_lock] ++
  (if b then [.stats_TimerStart, .vlc_mutex_unlock .object_lock, .input_Preparse p,
    .vlc_mutex_lock .object_lock, .stats_TimerStop] else []) ++
  [.vlc_mutex_unlock .object_lock] ++
  (if b then [.var_SetInteger_item_change i_id] else []) ++
  [.vlc_mutex_lock .object_lock, .vlc_mutex_lock .secondary_lock,
    .vlc_mutex_unlock .secondary_lock, .vlc_mutex_unlock .object_lock,
    .vlc_mutex_lock .preparse_lock, .vlc_mutex_unlock .preparse_lock, .msleep d]

/-- The calls of a wake-up of the secondary worker that pops the non-NULL
entry `p` with id `i_id`; `b` is its `b_fetch_art`. -/
def secondaryCalls (b : Bool) (p : Nat) (i_id : Int) : List Call :=
  [.vlc_mutex_lock .secondary_lock, .vlc_mutex_unlock .secondary_lock, .input_MetaFetch p] ++
  (if b then [.input_ArtFetch p] else []) ++
  [.var_SetInteger_item_change i_id, .vlc_gc_decref p]

/-- Every blocking call of the sequence, made from the locks `l`, is made with
no mutex held. -/
def replayFree (l : Locks) : List Call → Bool
  | [] => true
  | c :: cs => (!c.blocking || decide (l = Locks.free)) && replayFree (l.after c) cs

/-- The call is one of the two resource destructors. -/
def Call.isDestructor : Call → Bool
  | .vout_Destroy _ => true
  | .sout_DeleteInstance _ => true
  | _ => false

/-- The locks at a blocking call: a resource destructor is called with the
collector mutex held and no other mutex; every other blocking call is made
with no mutex held. -/
def BlockingUnlocked (o : Obs) : Prop :=
  o.call.blocking = true →
    (o.call.isDestructor = true ∧ o.held = Locks.free.set .gc_lock true) ∨
    (o.call.isDestructor = false ∧ o.held = Locks.free)

/-- The blocking destructor of the resource kind, called on `p`. -/
def destructorCall (i_type : ObjType) (p : vlc_object_t) : Call :=
  if i_type = .VLC_OBJECT_VOUT then .vout_Destroy p else .sout_DeleteInstance p

/-- The call detaches or destroys the resource `p`. -/
def Call.destroys (c : Call) (p : vlc_object_t) : Prop :=
  c = .vlc_object_detach p ∨ c = .vlc_object_destroy p ∨
  c = .vout_Destroy p ∨ c = .sout_DeleteInstance p

/-! ## Concrete states -/

/-- Collaborators for the concrete states: a stop request sets `b_die`, the
playlist has no next item, the best-effort steps leave the item as it is. -/
def env0 : Env where
  input_StopThread := fun p => { p with b_die := true }
  playlist_NextItem := fun _ => none
  playlist_PlayItem := fun pl _ => pl
  input_Preparse := fun it => it
  input_MetaFetch := fun it => it
  input_ArtFetch := fun it => it
  PLAYLIST_REMOVE_FLAG := 32
  ITEM_PREPARSED := 1
  ITEM_META_FETCHED := 2
  ITEM_ART_FETCHED := 8
  DEFAULT_INPUT_ACTIVITY := 1

/-- An engine (object 1) that is stopped, with no session and empty queues. -/
def pl0 : playlist_t where
  i_object_id := 1
  p_input := none
  status := ⟨.PLAYLIST_STOPPED, none⟩
  request := ⟨false, .PLAYLIST_STOPPED, none⟩
  i_vout_destroyed_date := 0
  i_sout_destroyed_date := 0
  activity := 0
  play_and_exit := false
  pp_waiting := []
  p_waiting := []

/-- The items of the concrete states: item 1 is `http://x`, item 2 is
`file:///y`, item 3 is the file `cdda_rip.ogg`. -/
def items0 (p : Nat) : input_item_t :=
  if p = 1 then ⟨1, "http://x".toList, 0⟩
  else if p = 2 then ⟨2, "file:///y".toList, 0⟩
  else if p = 3 then ⟨3, "cdda_rip.ogg".toList, 0⟩
  else ⟨0, [], 0⟩

/-- A state with no session, nothing below the engine and no lock held. -/
def world0 : World where
  pl := pl0
  locks := Locks.free
  objects := []
  items := items0
  playlist_items := fun _ => ⟨0⟩
  now := 5000000
  ticks := []
  libvlc_b_die := false
  trace := []

/-- A dead session (object 2, a child of the engine). -/
def deadInput : input_thread_t :=
  ⟨⟨2, .VLC_OBJECT_INPUT, 1⟩, true, true, false, false, .END_S⟩

/-- A state whose current session is dead and plays item 7. -/
def worldDead : World :=
  { world0 with
    pl := { pl0 with p_input := some deadInput, status := ⟨.PLAYLIST_RUNNING, some 7⟩ }
    objects := [deadInput.obj] }

/-- A state that is running with no session: a start is due. -/
def worldStartDue : World :=
  { world0 with pl := { pl0 with status := ⟨.PLAYLIST_RUNNING, none⟩ } }

/-- A state with the items 1 (`http://x`) and 2 (`file:///y`) in the primary
queue. -/
def worldQueue : World :=
  { world0 with pl := { pl0 with pp_waiting := [some 1, some 2] } }

/-- A state with item 3 (the file `cdda_rip.ogg`) in the primary queue. -/
def worldCdda : World :=
  { world0 with pl := { pl0 with pp_waiting := [some 3] } }

/-- A state with one video output (object 12) directly under the engine. -/
def worldVout : World :=
  { world0 with objects := [⟨12, .VLC_OBJECT_VOUT, 1⟩] }

/-- A state in which the search for a video output first meets object 11, the
video output of the input 10, and only then object 12, a video output
directly under the engine. -/
def worldNested : World :=
  { world0 with
    objects := [⟨10, .VLC_OBJECT_INPUT, 1⟩, ⟨11, .VLC_OBJECT_VOUT, 10⟩,
      ⟨12, .VLC_OBJECT_VOUT, 1⟩] }

/-- The call is a `playlist_ItemDelete`. -/
def Call.isItemDelete : Call → Bool
  | .playlist_ItemDelete _ => true
  | _ => false

/-- The playlist item at `p_item` carries the removal flag (the test of lines
272-273). -/
def removalFlagged (env : Env) (w : World) (p_item : Nat) : Prop :=
  (w.playlist_items p_item).i_flags &&& env.PLAYLIST_REMOVE_FLAG ≠ 0

/-- A state whose current session is dead; it plays item 7, which carries the
removal flag and is also the target of the pending request. -/
def worldDeadFlagged : World :=
  { world0 with
    pl := { pl0 with
      p_input := some deadInput
      status := ⟨.PLAYLIST_RUNNING, some 7⟩
      request := ⟨false, .PLAYLIST_STOPPED, some 7⟩
      activity := 1 }
    playlist_items := fun p => if p = 7 then ⟨32⟩ else ⟨0⟩
    objects := [deadInput.obj] }

/-- A state with item 2 in the primary queue and the activity 2147483. -/
def worldBusy : World :=
  { world0 with pl := { pl0 with pp_waiting := [some 2], activity := 2147483 } }

/-- A state whose secondary queue starts with a NULL entry. -/
def worldNullSecondary : World :=
  { world0 with pl := { pl0 with p_waiting := [⟨none, false⟩] } }

/-- A state whose current session is dead while the status item is NULL; the
engine sets the status item to NULL only when there is no session. -/
def worldDeadNoItem : World :=
  { world0 with
    pl := { pl0 with
      p_input := some deadInput
      status := ⟨.PLAYLIST_RUNNING, none⟩
      activity := 1 }
    objects := [deadInput.obj] }

/-- A mutex is locked only when the thread does not hold it and unlocked only
when the thread holds it. -/
def LockDiscipline (o : Obs) : Prop :=
  (∀ m : Mutex, o.call = .vlc_mutex_lock m → o.held.get m = false) ∧
  (∀ m : Mutex, o.call = .vlc_mutex_unlock m → o.held.get m = true)

/-- The sequence of calls, made from the locks `l`, keeps the lock discipline
and ends with the locks `l`. -/
def replayBalanced (l0 : Locks) : Locks → List Call → Bool
  | l, [] => decide (l = l0)
  | l, .vlc_mutex_lock m :: cs => !l.get m && replayBalanced l0 (l.set m true) cs
  | l, .vlc_mutex_unlock m :: cs => l.get m && replayBalanced l0 (l.set m false) cs
  | l, _ :: cs => replayBalanced l0 l cs

/-- A state with no lock held in which every function has a blocking call to
make: a video output (object 12) directly under the engine, item 2
(`file:///y`) in the primary queue and item 1 with `b_fetch_art` set in the
secondary queue. -/
def worldWork : World :=
  { world0 with
    pl := { pl0 with pp_waiting := [some 2], p_waiting := [⟨some 1, true⟩] }
    objects := [⟨12, .VLC_OBJECT_VOUT, 1⟩] }

theorem dropSubtree_sublist (parent : Nat) (l : List vlc_object_t) :
    ∀ ids : List Nat, (dropSubtree parent ids l).Sublist l := by
  induction l with
  | nil => intro ids; simp [dropSubtree]
  | cons x xs ih =>
    intro ids
    unfold dropSubtree
    split
    · exact (ih _).trans (List.sublist_cons_self x xs)
    · exact List.Sublist.refl _

theorem dropSubtree_mem (parent : Nat) (l : List vlc_object_t) (o : vlc_object_t) :
    ∀ ids : List Nat, o ∈ l → o ∈ dropSubtree parent ids l ∨ o.p_parent ≠ parent := by
  induction l with
  | nil => intro ids ho; simp at ho
  | cons x xs ih =>
    intro ids ho
    unfold dropSubtree
    split
    · rename_i hx
      rcases List.mem_cons.mp ho with h | h
      · right; rw [h]; exact hx.1
      · exact ih _ h
    · left; exact ho

theorem detachFrom_sublist (parent : Nat) (p : vlc_object_t) (l : List vlc_object_t) :
    (detachFrom parent p l).Sublist l := by
  induction l with
  | nil => simp [detachFrom]
  | cons o os ih =>
    unfold detachFrom
    split
    · exact (dropSubtree_sublist parent os _).trans (List.sublist_cons_self o os)
    · exact ih.cons₂ o

theorem detachFrom_length_lt (parent : Nat) (p : vlc_object_t) (l : List vlc_object_t)
    (hp : p ∈ l) : (detachFrom parent p l).length < l.length := by
  induction l with
  | nil => simp at hp
  | cons o os ih =>
    unfold detachFrom
    split
    · have := (dropSubtree_sublist parent os [p.i_object_id]).length_le
      simp only [List.length_cons]
      omega
    · rename_i hne
      have hp1 : p ∈ os := by
        rcases List.mem_cons.mp hp with h | h
        · exact absurd h.symm hne
        · exact h
      have := ih hp1
      simp only [List.length_cons]
      omega

theorem mem_dropWhile_or {α : Type} (q : α → Bool) (l : List α) (x : α) (hx : x ∈ l) :
    x ∈ l.dropWhile q ∨ q x = true := by
  induction l with
  | nil => simp at hx
  | cons a as ih =>
    by_cases ha : q a = true
    · rw [List.dropWhile_cons_of_pos ha]
      rcases List.mem_cons.mp hx with h | h
      · right; rw [h]; exact ha
      · exact ih h
    · rw [List.dropWhile_cons_of_neg ha]
      left; exact hx

theorem detachFrom_mem (parent : Nat) (p : vlc_object_t) (l : List vlc_object_t)
    (o : vlc_object_t) (ho : o ∈ l) :
    o ∈ detachFrom parent p l ∨ o = p ∨ o.p_parent ≠ parent := by
  induction l with
  | nil => simp at ho
  | cons a as ih =>
    unfold detachFrom
    split
    · rename_i ha
      rcases List.mem_cons.mp ho with h | h
      · right; left; rw [h, ha]
      · rcases dropSubtree_mem parent as o [p.i_object_id] h with h1 | h1
        · left; exact h1
        · right; right; exact h1
    · rcases List.mem_cons.mp ho with h | h
      · left; rw [h]; exact List.mem_cons_self _ _
      · rcases ih h with h1 | h1
        · left; exact List.mem_cons_of_mem _ h1
        · right; exact h1

theorem obsAt_congr (w w1 : World) (hl : w1.locks = w.locks) (hp : w1.pl = w.pl) :
    obsAt w1 = obsAt w := by
  funext c
  simp [obsAt, hl, hp]

theorem find_mem (w : World) (i_type : ObjType) (p : vlc_object_t)
    (h : vlc_object_find w i_type = some p) : p ∈ w.objects ∧ p.i_object_type = i_type := by
  unfold vlc_object_find at h
  refine ⟨List.mem_of_find?_eq_some h, ?_⟩
  simpa using List.find?_some h

/-- The sweep loop on a resource kind, with more fuel than there are objects
below the engine: it ends; it made the calls of one block for each resource of
a list `ds` of resources of the kind directly under the engine, followed, when
it stopped on a resource `q` owned by something else, by the release of `q`. -/
theorem gcLoop_run (i_type : ObjType) (hk : IsKind i_type) :
    ∀ (fuel : Nat) (w : World), w.objects.length < fuel →
    ∃ (w1 : World) (ds : List vlc_object_t) (tl : List Call),
      gcLoop fuel i_type w = some w1 ∧ SameButTree w w1 ∧ w1.locks = w.locks ∧
      w1.now = w.now ∧ w1.ticks = w.ticks ∧
      w1.trace = w.trace ++ (ds.flatMap (gcBlock i_type) ++ tl).map (obsAt w) ∧
      (∀ p ∈ ds, p ∈ w.objects ∧ p.p_parent = w.pl.i_object_id ∧ p.i_object_type = i_type) ∧
      ((tl = [] ∧ vlc_object_find w1 i_type = none) ∨
        ∃ q, vlc_object_find w1 i_type = some q ∧ q.p_parent ≠ w.pl.i_object_id ∧
          tl = [.vlc_object_release q]) ∧
      w1.objects.Sublist w.objects ∧
      (∀ o ∈ w.objects, o ∈ w1.objects ∨ o ∈ ds ∨ o.p_parent ≠ w.pl.i_object_id) := by
  intro fuel
  induction fuel with
  | zero => intro w h; omega
  | succ n ih =>
    intro w h
    unfold gcLoop
    cases hf : vlc_object_find w i_type with
    | none =>
      refine ⟨w, [], [], rfl, ⟨rfl, rfl, rfl, rfl⟩, rfl, rfl, rfl, by simp, by simp,
        Or.inl ⟨rfl, hf⟩, List.Sublist.refl _, fun o ho => Or.inl ho⟩
    | some p =>
      obtain ⟨hpm, hpt⟩ := find_mem w i_type p hf
      by_cases hp : p.p_parent ≠ w.pl.i_object_id
      · refine ⟨call (.vlc_object_release p) w, [], [.vlc_object_release p], by simp [hp],
          ⟨rfl, rfl, rfl, rfl⟩, rfl, rfl, rfl, by simp [call, obsAt], by simp,
          Or.inr ⟨p, hf, hp, rfl⟩, List.Sublist.refl _, fun o ho => Or.inl ho⟩
      · have hp1 : p.p_parent = w.pl.i_object_id := not_not.mp hp
        have hlt := detachFrom_length_lt w.pl.i_object_id p w.objects hpm
        rcases hk with hk | hk
        · subst hk
          obtain ⟨w1, ds, tl, h1, ⟨f1, f3, f4, f5⟩, f2, hn, ht, htr, hds, htl, hsub, hcov⟩ :=
            ih (call (.vout_Destroy p) (call (.vlc_object_release p) (vlc_object_detach p w)))
              (by simp only [call, vlc_object_detach]; omega)
          refine ⟨w1, p :: ds, tl, ?_, ⟨f1, f3, f4, f5⟩, f2, hn, ht, ?_, ?_, ?_, ?_, ?_⟩
          · simpa [hp1] using h1
          · have ho : obsAt (call (.vout_Destroy p) (call (.vlc_object_release p)
                (vlc_object_detach p w))) = obsAt w := obsAt_congr _ _ rfl rfl
            rw [htr, ho]
            simp [call, vlc_object_detach, obsAt, gcBlock]
          · intro q hq
            rcases List.mem_cons.mp hq with hq | hq
            · rw [hq]; exact ⟨hpm, hp1, hpt⟩
            · obtain ⟨a, b, c⟩ := hds q hq
              exact ⟨(detachFrom_sublist _ _ _).subset a, b, c⟩
          · exact htl
          · exact hsub.trans (detachFrom_sublist _ _ _)
          · intro o ho
            rcases detachFrom_mem w.pl.i_object_id p w.objects o ho with h2 | h2 | h2
            · rcases hcov o h2 with h3 | h3 | h3
              · exact Or.inl h3
              · exact Or.inr (Or.inl (List.mem_cons_of_mem _ h3))
              · exact Or.inr (Or.inr h3)
            · exact Or.inr (Or.inl (h2 ▸ List.mem_cons_self _ _))
            · exact Or.inr (Or.inr h2)
        · subst hk
          obtain ⟨w1, ds, tl, h1, ⟨f1, f3, f4, f5⟩, f2, hn, ht, htr, hds, htl, hsub, hcov⟩ :=
            ih (sout_DeleteInstance p (call (.vlc_object_release p) w))
              (by simp only [call, sout_DeleteInstance]; omega)
          refine ⟨w1, p :: ds, tl, ?_, ⟨f1, f3, f4, f5⟩, f2, hn, ht, ?_, ?_, ?_, ?_, ?_⟩
          · simpa [hp1] using h1
          · have ho : obsAt (sout_DeleteInstance p (call (.vlc_object_release p) w)) =
                obsAt w := obsAt_congr _ _ rfl rfl
            rw [htr, ho]
            simp [call, sout_DeleteInstance, obsAt, gcBlock]
          · intro q hq
            rcases List.mem_cons.mp hq with hq | hq
            · rw [hq]; exact ⟨hpm, hp1, hpt⟩
            · obtain ⟨a, b, c⟩ := hds q hq
              exact ⟨(detachFrom_sublist _ _ _).subset a, b, c⟩
          · exact htl
          · exact hsub.trans (detachFrom_sublist _ _ _)
          · intro o ho
            rcases detachFrom_mem w.pl.i_object_id p w.objects o ho with h2 | h2 | h2
            · rcases hcov o h2 with h3 | h3 | h3
              · exact Or.inl h3
              · exact Or.inr (Or.inl (List.mem_cons_of_mem _ h3))
              · exact Or.inr (Or.inr h3)
            · exact Or.inr (Or.inl (h2 ▸ List.mem_cons_self _ _))
            · exact Or.inr (Or.inr h2)

theorem gcBlock_obs (i_type : ObjType) (p : vlc_object_t) (c : Call)
    (hc : c ∈ gcBlock i_type p) :
    c = .vlc_object_release p ∨ c = .vlc_object_detach p ∨ c = .vout_Destroy p ∨
      c = .sout_DeleteInstance p := by
  unfold gcBlock at hc
  split at hc
  · simp only [List.mem_cons, List.mem_singleton, List.not_mem_nil, or_false] at hc
    rcases hc with h | h | h
    · exact Or.inr (Or.inl h)
    · exact Or.inl h
    · exact Or.inr (Or.inr (Or.inl h))
  · simp only [List.mem_cons, List.mem_singleton, List.not_mem_nil, or_false] at hc
    rcases hc with h | h
    · exact Or.inl h
    · exact Or.inr (Or.inr (Or.inr h))

/-- One sweep on a resource kind with more fuel than objects below the engine:
it returns, leaves the engine fields and the item memory alone, holds the
locks it was entered with (the collector mutex released), and every call it
made is one of `GcObs`. -/
theorem ObjectGarbageCollector_run (i_type : ObjType) (hk : IsKind i_type) (fuel : Nat)
    (destroy_date : Int) (w : World) (h : w.objects.length < fuel) :
    ∃ (d : Int) (w1 : World) (evs : List Obs),
      ObjectGarbageCollector fuel i_type destroy_date w = some (d, w1) ∧
      SameButTree w w1 ∧
      (w1.locks = w.locks ∨ w1.locks = w.locks.set .gc_lock false) ∧
      w1.objects.Sublist w.objects ∧
      w1.trace = w.trace ++ evs ∧ ∀ o ∈ evs, GcObs w o := by
  unfold ObjectGarbageCollector
  by_cases h1 : destroy_date > (w.now : Int)
  · exact ⟨destroy_date, (mdate w).2, [], by simp [h1, mdate], ⟨rfl, rfl, rfl, rfl⟩, Or.inl rfl,
      List.Sublist.refl _, by simp [mdate], by simp⟩
  · by_cases h2 : destroy_date = 0
    · subst h2
      exact ⟨wrap64 ((mdate (mdate w).2).1 + 1000000), (mdate (mdate w).2).2, [],
        by simp [h1, mdate], ⟨rfl, rfl, rfl, rfl⟩,
        Or.inl rfl, List.Sublist.refl _, by simp [mdate], by simp⟩
    · obtain ⟨w1, ds, tl, e1, ⟨f1, f3, f4, f5⟩, f2, -, -, htr, hds, htl, hsub, -⟩ :=
        gcLoop_run i_type hk fuel (vlc_mutex_lock .gc_lock (mdate w).2)
          (by simpa [vlc_mutex_lock, call, mdate] using h)
      refine ⟨0, vlc_mutex_unlock .gc_lock w1,
        ⟨.vlc_mutex_lock .gc_lock, w.locks, w.pl.p_input⟩ ::
          ((ds.flatMap (gcBlock i_type) ++ tl).map (obsAt (vlc_mutex_lock .gc_lock (mdate w).2))
            ++ [⟨.vlc_mutex_unlock .gc_lock, w1.locks, w1.pl.p_input⟩]), ?_,
        ⟨f1, f3, f4, f5⟩, Or.inr ?_, hsub, ?_, ?_⟩
      · have h1a : ¬ ((w.now : Int) < destroy_date) := h1
        simp only [mdate] at e1 ⊢
        simp only [gt_iff_lt, h1a, h2, if_false, e1]
      · simp [vlc_mutex_unlock, call, f2, vlc_mutex_lock, Locks.set, mdate]
      · simp [vlc_mutex_unlock, call, htr, vlc_mutex_lock, mdate]
      · intro o ho
        simp only [List.mem_append, List.mem_singleton, List.mem_map, List.mem_cons,
          List.mem_flatMap, List.not_mem_nil, or_false] at ho
        rcases ho with ho | ho | ho
        · subst ho
          exact ⟨rfl, Or.inl ⟨rfl, rfl⟩⟩
        · obtain ⟨c, hc, rfl⟩ := ho
          refine ⟨rfl, Or.inr ⟨rfl, Or.inr ?_⟩⟩
          rcases hc with ⟨p, hp, hcp⟩ | hc
          · obtain ⟨a, b, _⟩ := hds p hp
            refine ⟨p, ?_⟩
            rcases gcBlock_obs i_type p c hcp with h | h | h | h
            · exact Or.inl h
            · exact Or.inr ⟨b, a, Or.inl h⟩
            · exact Or.inr ⟨b, a, Or.inr (Or.inl h)⟩
            · exact Or.inr ⟨b, a, Or.inr (Or.inr h)⟩
          · rcases htl with ⟨rfl, _⟩ | ⟨q, _, _, rfl⟩
            · simp at hc
            · simp at hc
              exact ⟨q, Or.inl hc⟩
        · subst ho
          refine ⟨?_, Or.inr ⟨?_, Or.inl rfl⟩⟩
          · simp [f1, vlc_mutex_lock, call, mdate]
          · simp [f2, vlc_mutex_lock, call, mdate]

/-! ## The control loop: helper lemmas -/

@[simp] theorem call_pl (c : Call) (w : World) : (call c w).pl = w.pl := rfl
@[simp] theorem call_locks (c : Call) (w : World) : (call c w).locks = w.locks := rfl
@[simp] theorem call_objects (c : Call) (w : World) : (call c w).objects = w.objects := rfl
@[simp] theorem call_items (c : Call) (w : World) : (call c w).items = w.items := rfl
@[simp] theorem call_playlist_items (c : Call) (w : World) :
    (call c w).playlist_items = w.playlist_items := rfl
@[simp] theorem call_libvlc_b_die (c : Call) (w : World) :
    (call c w).libvlc_b_die = w.libvlc_b_die := rfl
@[simp] theorem call_now (c : Call) (w : World) : (call c w).now = w.now := rfl
@[simp] theorem call_ticks (c : Call) (w : World) : (call c w).ticks = w.ticks := rfl
@[simp] theorem call_trace (c : Call) (w : World) :
    (call c w).trace = w.trace ++ [⟨c, w.locks, w.pl.p_input⟩] := rfl

@[simp] theorem lock_pl (m : Mutex) (w : World) : (vlc_mutex_lock m w).pl = w.pl := rfl
@[simp] theorem lock_locks (m : Mutex) (w : World) :
    (vlc_mutex_lock m w).locks = w.locks.set m true := rfl
@[simp] theorem lock_objects (m : Mutex) (w : World) :
    (vlc_mutex_lock m w).objects = w.objects := rfl
@[simp] theorem lock_items (m : Mutex) (w : World) : (vlc_mutex_lock m w).items = w.items := rfl
@[simp] theorem lock_playlist_items (m : Mutex) (w : World) :
    (vlc_mutex_lock m w).playlist_items = w.playlist_items := rfl
@[simp] theorem lock_libvlc_b_die (m : Mutex) (w : World) :
    (vlc_mutex_lock m w).libvlc_b_die = w.libvlc_b_die := rfl
@[simp] theorem lock_now (m : Mutex) (w : World) : (vlc_mutex_lock m w).now = w.now := rfl
@[simp] theorem lock_ticks (m : Mutex) (w : World) : (vlc_mutex_lock m w).ticks = w.ticks := rfl
@[simp] theorem lock_trace (m : Mutex) (w : World) :
    (vlc_mutex_lock m w).trace = w.trace ++ [⟨.vlc_mutex_lock m, w.locks, w.pl.p_input⟩] := rfl

@[simp] theorem unlock_pl (m : Mutex) (w : World) : (vlc_mutex_unlock m w).pl = w.pl := rfl
@[simp] theorem unlock_locks (m : Mutex) (w : World) :
    (vlc_mutex_unlock m w).locks = w.locks.set m false := rfl
@[simp] theorem unlock_objects (m : Mutex) (w : World) :
    (vlc_mutex_unlock m w).objects = w.objects := rfl
@[simp] theorem unlock_items (m : Mutex) (w : World) :
    (vlc_mutex_unlock m w).items = w.items := rfl
@[simp] theorem unlock_playlist_items (m : Mutex) (w : World) :
    (vlc_mutex_unlock m w).playlist_items = w.playlist_items := rfl
@[simp] theorem unlock_libvlc_b_die (m : Mutex) (w : World) :
    (vlc_mutex_unlock m w).libvlc_b_die = w.libvlc_b_die := rfl
@[simp] theorem unlock_now (m : Mutex) (w : World) : (vlc_mutex_unlock m w).now = w.now := rfl
@[simp] theorem unlock_ticks (m : Mutex) (w : World) :
    (vlc_mutex_unlock m w).ticks = w.ticks := rfl
@[simp] theorem unlock_trace (m : Mutex) (w : World) :
    (vlc_mutex_unlock m w).trace =
      w.trace ++ [⟨.vlc_mutex_unlock m, w.locks, w.pl.p_input⟩] := rfl

@[simp] theorem mdate_fst (w : World) : (mdate w).1 = (w.now : Int) := rfl
@[simp] theorem mdate_pl (w : World) : (mdate w).2.pl = w.pl := rfl
@[simp] theorem mdate_locks (w : World) : (mdate w).2.locks = w.locks := rfl
@[simp] theorem mdate_objects (w : World) : (mdate w).2.objects = w.objects := rfl
@[simp] theorem mdate_items (w : World) : (mdate w).2.items = w.items := rfl
@[simp] theorem mdate_playlist_items (w : World) :
    (mdate w).2.playlist_items = w.playlist_items := rfl
@[simp] theorem mdate_libvlc_b_die (w : World) :
    (mdate w).2.libvlc_b_die = w.libvlc_b_die := rfl
@[simp] theorem mdate_trace (w : World) : (mdate w).2.trace = w.trace := rfl

@[simp] theorem set_set (l : Locks) (m : Mutex) (a b : Bool) :
    (l.set m a).set m b = l.set m b := by
  cases m <;> rfl

theorem gcThen_run (i_type : ObjType) (hk : IsKind i_type) (fuel : Nat) (date : Int)
    (w : World) (h : w.objects.length < fuel) (k : Int → World → Run) (P : Run → Prop)
    (hP : ∀ (d : Int) (w1 : World) (evs : List Obs), SameButTree w w1 →
      (w1.locks = w.locks ∨ w1.locks = w.locks.set .gc_lock false) →
      w1.objects.Sublist w.objects → w1.trace = w.trace ++ evs →
      (∀ o ∈ evs, GcObs w o) → P (k d w1)) :
    P (gcThen (ObjectGarbageCollector fuel i_type date w) k) := by
  obtain ⟨d, w1, evs, e, hs, hl, hsub, htr, hev⟩ :=
    ObjectGarbageCollector_run i_type hk fuel date w h
  rw [e]
  exact hP d w1 evs hs hl hsub htr hev

theorem requestCheck_run (env : Env) (w : World) :
    ∃ evs : List Obs, (requestCheck env w).trace = w.trace ++ evs ∧
      (∀ o ∈ evs, ∃ p, o = ⟨.input_StopThread p, w.locks, w.pl.p_input⟩) ∧
      (requestCheck env w).locks = w.locks ∧
      (requestCheck env w).objects = w.objects ∧
      (requestCheck env w).pl = { w.pl with p_input := (requestCheck env w).pl.p_input } ∧
      (requestCheck env w).playlist_items = w.playlist_items ∧
      (requestCheck env w).libvlc_b_die = w.libvlc_b_die ∧
      (w.pl.p_input = none → (requestCheck env w).pl.p_input = none) := by
  unfold requestCheck
  split
  · split
    · split
      · rename_i p _ _
        exact ⟨[⟨.input_StopThread p, w.locks, w.pl.p_input⟩],
          by simp [input_StopThread, call], by simp, rfl, rfl, rfl, rfl, rfl,
          fun h => by simp_all⟩
      · exact ⟨[], by simp, by simp, rfl, rfl, rfl, rfl, rfl, fun h => h⟩
    · exact ⟨[], by simp, by simp, rfl, rfl, rfl, rfl, rfl, fun h => h⟩
  · exact ⟨[], by simp, by simp, rfl, rfl, rfl, rfl, rfl, fun h => h⟩

theorem GcObs_call (w : World) (o : Obs) (h : GcObs w o) :
    o.call = .vlc_mutex_lock .gc_lock ∨ o.call = .vlc_mutex_unlock .gc_lock ∨
    ∃ p : vlc_object_t, o.call = .vlc_object_release p ∨ o.call = .vlc_object_detach p ∨
      o.call = .vout_Destroy p ∨ o.call = .sout_DeleteInstance p := by
  obtain ⟨_, h | ⟨_, h | ⟨p, h | ⟨_, _, h⟩⟩⟩⟩ := h
  · exact Or.inl h.1
  · exact Or.inr (Or.inl h)
  · exact Or.inr (Or.inr ⟨p, Or.inl h⟩)
  · exact Or.inr (Or.inr ⟨p, Or.inr h⟩)

theorem Unlocked_set (l0 l : Locks) (h : Unlocked l0 l) : l.set .object_lock false = l := by
  rcases h with rfl | rfl <;> rfl

theorem MainLoop_running_run (fuel : Nat) (w : World) (hfuel : w.objects.length < fuel) :
    SweepResult w (MainLoop_running fuel w) := by
  unfold MainLoop_running
  refine gcThen_run (P := SweepResult w) _ (Or.inl rfl) fuel _ _ (by simpa [PL_UNLOCK] using hfuel) _ ?_
  intro d1 w1 evs1 ⟨s1, s2, s3, s4⟩ hl1 hsub1 htr1 hev1
  refine gcThen_run (P := SweepResult w) _ (Or.inr rfl) fuel _ _
    (by have := hsub1.length_le; simp [PL_UNLOCK] at this ⊢; omega) _ ?_
  intro d2 w2 evs2 ⟨t1, t2, t3, t4⟩ hl2 hsub2 htr2 hev2
  simp only [PL_UNLOCK, PL_LOCK, unlock_pl, unlock_locks, unlock_objects, unlock_trace,
    unlock_libvlc_b_die] at *
  have hu1 : Unlocked w.locks w1.locks := by
    rcases hl1 with h | h
    · exact Or.inl h
    · exact Or.inr h
  have hu2 : Unlocked w.locks w2.locks := by
    rcases hl2 with h | h
    · exact h ▸ hu1
    · rcases hu1 with h1 | h1
      · right; rw [h, h1]
      · right; rw [h, h1]; simp
  refine ⟨_, [⟨.vlc_mutex_unlock .object_lock, w.locks, w.pl.p_input⟩] ++ evs1 ++ evs2 ++
    [⟨.vlc_mutex_lock .object_lock, w2.locks, w.pl.p_input⟩,
     ⟨.vlc_mutex_unlock .object_lock, w2.locks.set .object_lock true, w.pl.p_input⟩],
    rfl, ?_, ?_, ?_, ?_, ?_, ?_, ?_, ?_⟩
  · simp [htr2, htr1, t1, s1]
  · intro o ho
    simp only [List.mem_append, List.mem_singleton, List.mem_cons, List.not_mem_nil,
      or_false] at ho
    rcases ho with ((ho | ho) | ho) | ho | ho
    · subst ho; exact ⟨rfl, Or.inr (Or.inl ⟨rfl, rfl⟩)⟩
    · exact ⟨(hev1 o ho).1, Or.inr (Or.inr (Or.inr ⟨_, hev1 o ho, Or.inl rfl, rfl, rfl,
        List.Sublist.refl _⟩))⟩
    · exact ⟨by rw [(hev2 o ho).1]; simp [s1], Or.inr (Or.inr (Or.inr ⟨_, hev2 o ho, hu1,
        by simp [s1], by simp [s1], hsub1⟩))⟩
    · subst ho; exact ⟨rfl, Or.inr (Or.inr (Or.inl ⟨_, hu2, Or.inl ⟨rfl, rfl⟩⟩))⟩
    · subst ho; exact ⟨rfl, Or.inr (Or.inr (Or.inl ⟨_, hu2, Or.inr ⟨rfl, rfl⟩⟩))⟩
  · simp [t1, s1]
  · simp [t1, s1]
  · simp [t1, s1]
  · simp [t4, s4]
  · show Unlocked w.locks ((w2.locks.set .object_lock true).set .object_lock false)
    rw [set_set, Unlocked_set _ _ hu2]; exact hu2
  · exact hsub2.trans hsub1

theorem MainLoop_idle_run (env : Env) (fuel : Nat) (w : World)
    (hfuel : w.objects.length < fuel) : SweepResult w (MainLoop_idle env fuel w) := by
  unfold MainLoop_idle
  have h0 : ∃ (w0 : World) (dl : List Obs),
      (match w.pl.status.p_item with
        | some p_item =>
          if (w.playlist_items p_item).i_flags &&& env.PLAYLIST_REMOVE_FLAG ≠ 0 then
            let w := call (.playlist_ItemDelete p_item) w
            { w with pl.status.p_item := none }
          else w
        | none => w) = w0 ∧
      w0.trace = w.trace ++ dl ∧
      (∀ o ∈ dl, ∃ p : Nat, o = ⟨.playlist_ItemDelete p, w.locks, w.pl.p_input⟩) ∧
      w0.pl.p_input = w.pl.p_input ∧ w0.pl.status.i_status = w.pl.status.i_status ∧
      w0.pl.request = w.pl.request ∧ w0.libvlc_b_die = w.libvlc_b_die ∧
      w0.locks = w.locks ∧ w0.objects = w.objects ∧ w0.pl.i_object_id = w.pl.i_object_id := by
    split
    · split
      · rename_i p _ _
        exact ⟨_, [⟨.playlist_ItemDelete p, w.locks, w.pl.p_input⟩], rfl, by simp, by simp,
          rfl, rfl, rfl, rfl, rfl, rfl, rfl⟩
      · exact ⟨_, [], rfl, by simp, by simp, rfl, rfl, rfl, rfl, rfl, rfl, rfl⟩
    · exact ⟨_, [], rfl, by simp, by simp, rfl, rfl, rfl, rfl, rfl, rfl, rfl⟩
  obtain ⟨w0, dl, e0, htr0, hdl, hp0, hs0, hr0, hb0, hl0, ho0, hi0⟩ := h0
  simp only [] at e0 ⊢
  rw [e0]
  refine gcThen_run (P := SweepResult w) _ (Or.inr rfl) fuel _ _
    (by simpa [PL_UNLOCK, ho0] using hfuel) _ ?_
  intro d1 w1 evs1 ⟨s1, s2, s3, s4⟩ hl1 hsub1 htr1 hev1
  refine gcThen_run (P := SweepResult w) _ (Or.inl rfl) fuel _ _
    (by have := hsub1.length_le; simp [PL_UNLOCK, ho0] at this ⊢; omega) _ ?_
  intro d2 w2 evs2 ⟨t1, t2, t3, t4⟩ hl2 hsub2 htr2 hev2
  simp only [PL_UNLOCK, PL_LOCK, unlock_pl, unlock_locks, unlock_objects, unlock_trace,
    unlock_libvlc_b_die, mdate_pl, mdate_locks, mdate_objects, mdate_trace,
    mdate_libvlc_b_die] at *
  have hu1 : Unlocked w.locks w1.locks := by
    rcases hl1 with h | h
    · exact Or.inl (by rw [h, hl0])
    · exact Or.inr (by rw [h, hl0])
  have hu2 : Unlocked w.locks w2.locks := by
    rcases hl2 with h | h
    · exact h ▸ hu1
    · rcases hu1 with h1 | h1
      · right; rw [h, h1]
      · right; rw [h, h1]; simp
  refine ⟨_, dl ++ [⟨.vlc_mutex_unlock .object_lock, w.locks, w.pl.p_input⟩] ++ evs1 ++ evs2 ++
    [⟨.vlc_mutex_lock .object_lock, w2.locks, w.pl.p_input⟩,
     ⟨.vlc_mutex_unlock .object_lock, w2.locks.set .object_lock true, w.pl.p_input⟩],
    rfl, ?_, ?_, ?_, ?_, ?_, ?_, ?_, ?_⟩
  · simp [htr2, htr1, htr0, t1, s1, hp0, hl0]
  · intro o ho
    simp only [List.mem_append, List.mem_singleton, List.mem_cons, List.not_mem_nil,
      or_false] at ho
    rcases ho with (((ho | ho) | ho) | ho) | ho | ho
    · obtain ⟨p, rfl⟩ := hdl o ho
      exact ⟨rfl, Or.inl ⟨p, rfl, rfl⟩⟩
    · subst ho; exact ⟨rfl, Or.inr (Or.inl ⟨rfl, rfl⟩)⟩
    · exact ⟨by rw [(hev1 o ho).1]; simp [hp0], Or.inr (Or.inr (Or.inr ⟨_, hev1 o ho,
        Or.inl (by simp [hl0]), by simp [hi0], by simp [hp0], by simp [ho0]⟩))⟩
    · exact ⟨by rw [(hev2 o ho).1]; simp [s1, hp0], Or.inr (Or.inr (Or.inr ⟨_, hev2 o ho,
        by simpa using hu1, by simp [s1, hi0], by simp [s1, hp0], by simpa [ho0] using hsub1⟩))⟩
    · subst ho; exact ⟨rfl, Or.inr (Or.inr (Or.inl ⟨_, hu2, Or.inl ⟨rfl, rfl⟩⟩))⟩
    · subst ho; exact ⟨rfl, Or.inr (Or.inr (Or.inl ⟨_, hu2, Or.inr ⟨rfl, rfl⟩⟩))⟩
  · simp [t1, s1, hp0]
  · simp [t1, s1, hs0]
  · simp [t1, s1, hr0]
  · simp [t4, s4, hb0]
  · show Unlocked w.locks ((w2.locks.set .object_lock true).set .object_lock false)
    rw [set_set, Unlocked_set _ _ hu2]; exact hu2
  · have := hsub2.trans hsub1
    simpa [ho0] using this

theorem MainLoop_dead_run (env : Env) (p : input_thread_t) (w : World) :
    ∃ (w1 : World) (rest : List Obs), (MainLoop_dead env p w).final = some w1 ∧
      w1.trace = w.trace ++
        [⟨.vlc_mutex_unlock .object_lock, w.locks, none⟩,
         ⟨.input_DestroyThread p, w.locks.set .object_lock false, none⟩,
         ⟨.vlc_object_detach p.obj, w.locks.set .object_lock false, none⟩,
         ⟨.vlc_object_destroy p.obj, w.locks.set .object_lock false, none⟩] ++ rest ∧
      (∀ o ∈ rest, o.held = w.locks.set .object_lock false ∧ o.p_input = none ∧
        ((∃ i : Nat, o.call = .playlist_ItemDelete i) ∨
          ∃ v : Int, o.call = .var_SetInteger_activity v)) ∧
      w1.pl.p_input = none ∧ w1.locks = w.locks.set .object_lock false ∧
      (w.pl.status.p_item ≠ none → MainLoop_dead env p w = .returned w1) := by
  unfold MainLoop_dead
  simp only [PL_UNLOCK, vlc_object_detach, call_pl, unlock_pl, call_playlist_items,
      unlock_playlist_items]
  cases hi : w.pl.status.p_item with
  | none =>
    simp only [Run.final]
    refine ⟨_, [], rfl, by simp, by simp, rfl, rfl, by simp⟩
  | some i =>
    simp only [Run.final]
    split
    · split
      · refine ⟨_, [⟨.playlist_ItemDelete i, w.locks.set .object_lock false, none⟩,
          ⟨.var_SetInteger_activity (wrap32 (w.pl.activity - env.DEFAULT_INPUT_ACTIVITY)),
            w.locks.set .object_lock false, none⟩],
          rfl, by simp, by simp, rfl, rfl, fun _ => rfl⟩
      · refine ⟨_, [⟨.playlist_ItemDelete i, w.locks.set .object_lock false, none⟩,
          ⟨.var_SetInteger_activity (wrap32 (w.pl.activity - env.DEFAULT_INPUT_ACTIVITY)),
            w.locks.set .object_lock false, none⟩],
          rfl, by simp, by simp, rfl, rfl, fun _ => rfl⟩
    · refine ⟨_, [⟨.var_SetInteger_activity (wrap32 (w.pl.activity - env.DEFAULT_INPUT_ACTIVITY)),
            w.locks.set .object_lock false, none⟩],
          rfl, by simp, by simp, rfl, rfl, fun _ => rfl⟩

theorem MainLoop_start_run (env : Env) (b : Bool) (w : World) :
    ∃ (w1 : World) (evs : List Obs), MainLoop_start env b w = .returned w1 ∧
      w1.trace = w.trace ++ evs ∧
      (∀ o ∈ evs, o.held = w.locks ∧
        (o.call = .stats_TimerStart ∨ o.call = .playlist_NextItem ∨ o.call = .stats_TimerStop ∨
          (∃ i : Nat, o.call = .playlist_PlayItem i ∧ env.playlist_NextItem w.pl = some i) ∨
          o.call = .vlc_mutex_unlock .object_lock)) ∧
      w1.locks = w.locks.set .object_lock false ∧ w1.objects = w.objects ∧
      (env.playlist_NextItem w.pl = none →
        w1.pl.p_input = w.pl.p_input ∧ w1.pl.status.i_status = .PLAYLIST_STOPPED ∧
        w1.pl.request = w.pl.request) := by
  unfold MainLoop_start
  simp only [call_pl]
  cases hn : env.playlist_NextItem w.pl with
  | none =>
    simp only []
    refine ⟨_, [⟨.stats_TimerStart, w.locks, w.pl.p_input⟩,
      ⟨.playlist_NextItem, w.locks, w.pl.p_input⟩, ⟨.stats_TimerStop, w.locks, w.pl.p_input⟩,
      ⟨.vlc_mutex_unlock .object_lock, w.locks, w.pl.p_input⟩], rfl, ?_, by simp, ?_, ?_, ?_⟩
    · split <;> simp [PL_UNLOCK]
    · split <;> simp [PL_UNLOCK]
    · split <;> simp [PL_UNLOCK]
    · intro _; split <;> simp [PL_UNLOCK]
  | some i =>
    simp only []
    refine ⟨_, [⟨.stats_TimerStart, w.locks, w.pl.p_input⟩,
      ⟨.playlist_NextItem, w.locks, w.pl.p_input⟩, ⟨.stats_TimerStop, w.locks, w.pl.p_input⟩,
      ⟨.playlist_PlayItem i, w.locks, w.pl.p_input⟩,
      ⟨.vlc_mutex_unlock .object_lock, w.locks, (env.playlist_PlayItem w.pl i).p_input⟩],
      rfl, by simp [PL_UNLOCK], by simp, by simp [PL_UNLOCK], by simp [PL_UNLOCK], by simp⟩

theorem GcObs_not_destroyThread (w : World) (o : Obs) (h : GcObs w o) (s : input_thread_t) :
    o.call ≠ .input_DestroyThread s := by
  rcases GcObs_call w o h with h | h | ⟨p, h | h | h | h⟩ <;> simp [h]

theorem SweepObs_not_destroyThread (w : World) (o : Obs) (h : SweepObs w o)
    (s : input_thread_t) : o.call ≠ .input_DestroyThread s := by
  obtain ⟨_, ⟨p, h, _⟩ | ⟨h, _⟩ | ⟨l, _, ⟨h, _⟩ | ⟨h, _⟩⟩ | ⟨w1, h, _⟩⟩ := h
  · simp [h]
  · simp [h]
  · simp [h]
  · simp [h]
  · exact GcObs_not_destroyThread w1 o h s

/-- C1: a step of the control loop ends, and it calls `input_DestroyThread` on
a session exactly when that session is the current one and its `b_dead` flag
is set when the step checks it. -/
theorem C1_destroy_iff_dead (env : Env) (fuel : Nat) (w : World)
    (hfuel : w.objects.length < fuel) :
    ∃ (w1 : World) (evs : List Obs), (playlist_MainLoop env fuel w).final = some w1 ∧
      w1.trace = w.trace ++ evs ∧
      ∀ s : input_thread_t, (∃ o ∈ evs, o.call = .input_DestroyThread s) ↔
        (checkedInput env w = some s ∧ s.b_dead = true) := by
  obtain ⟨evs0, ht0, hev0, hl0, ho0, -, -, -, -⟩ := requestCheck_run env (PL_LOCK w)
  unfold checkedInput playlist_MainLoop
  simp only []
  generalize requestCheck env (PL_LOCK w) = w0 at *
  have hno0 : ∀ o ∈ evs0, ∀ s : input_thread_t, o.call ≠ .input_DestroyThread s := by
    intro o ho s
    obtain ⟨p, rfl⟩ := hev0 o ho
    simp
  have hfuel0 : w0.objects.length < fuel := by rw [ho0]; exact hfuel
  have key : ∀ (r : Run) (w1 : World) (evs : List Obs), r.final = some w1 →
      w1.trace = w0.trace ++ evs →
      (∀ s : input_thread_t, (∃ o ∈ evs, o.call = .input_DestroyThread s) ↔
        (w0.pl.p_input = some s ∧ s.b_dead = true)) →
      ∃ (w1 : World) (evs : List Obs), r.final = some w1 ∧
        w1.trace = w.trace ++ evs ∧
        ∀ s : input_thread_t, (∃ o ∈ evs, o.call = .input_DestroyThread s) ↔
          (w0.pl.p_input = some s ∧ s.b_dead = true) := by
    intro r w1 evs h1 h2 h3
    refine ⟨w1, [⟨.vlc_mutex_lock .object_lock, w.locks, w.pl.p_input⟩] ++ evs0 ++ evs, h1,
      by rw [h2, ht0]; simp [PL_LOCK], ?_⟩
    intro s
    rw [← h3 s]
    constructor
    · rintro ⟨o, ho, hc⟩
      simp only [List.mem_append, List.mem_singleton] at ho
      rcases ho with (ho | ho) | ho
      · subst ho; simp at hc
      · exact absurd hc (hno0 o ho s)
      · exact ⟨o, ho, hc⟩
    · rintro ⟨o, ho, hc⟩
      exact ⟨o, by simp [ho], hc⟩
  split
  case h_2 hp =>
    split
    · obtain ⟨w1, evs, e, htr, hev, -⟩ := MainLoop_start_run env w.pl.play_and_exit w0
      refine key (MainLoop_start env w.pl.play_and_exit w0) w1 evs (by rw [e]; rfl) htr ?_
      intro s
      simp only [hp, false_and, iff_false, not_exists, not_and, reduceCtorEq]
      intro o ho hc
      rcases (hev o ho).2 with h | h | h | ⟨i, h, _⟩ | h <;> simp [h] at hc
    · obtain ⟨w1, evs, e, htr, hev, -⟩ := MainLoop_idle_run env fuel w0 hfuel0
      refine key (MainLoop_idle env fuel w0) w1 evs (by rw [e]; rfl) htr ?_
      intro s
      simp only [hp, false_and, iff_false, not_exists, not_and, reduceCtorEq]
      intro o ho hc
      exact SweepObs_not_destroyThread w0 o (hev o ho) s hc
  case h_1 p hp =>
    by_cases hd : p.b_dead = true
    · rw [if_pos hd]
      obtain ⟨w1, rest, e, htr, hrest, -⟩ := MainLoop_dead_run env p w0
      refine key (MainLoop_dead env p w0) w1 _ e (by rw [htr, List.append_assoc]) ?_
      intro s
      constructor
      · rintro ⟨o, ho, hc⟩
        simp only [List.mem_append, List.mem_cons, List.not_mem_nil, or_false] at ho
        rcases ho with (ho | ho | ho | ho) | ho
        · subst ho; simp at hc
        · subst ho
          simp only [Call.input_DestroyThread.injEq] at hc
          subst hc
          exact ⟨hp, hd⟩
        · subst ho; simp at hc
        · subst ho; simp at hc
        · rcases (hrest o ho).2.2 with ⟨i, h⟩ | ⟨v, h⟩ <;> simp [h] at hc
      · rintro ⟨h1, -⟩
        rw [hp] at h1
        cases h1
        exact ⟨⟨.input_DestroyThread p, w0.locks.set .object_lock false, none⟩, by simp, rfl⟩
    · have hnd : ∀ (evs : List Obs),
          (∀ o ∈ evs, ∀ s : input_thread_t, o.call ≠ .input_DestroyThread s) →
          ∀ s : input_thread_t, (∃ o ∈ evs, o.call = .input_DestroyThread s) ↔
            (w0.pl.p_input = some s ∧ s.b_dead = true) := by
        intro evs h s
        constructor
        · rintro ⟨o, ho, hc⟩
          exact absurd hc (h o ho s)
        · rintro ⟨h1, h2⟩
          rw [hp] at h1
          cases h1
          exact absurd h2 hd
      rw [if_neg hd]
      split
      · exact key _ (PL_UNLOCK w0) [⟨.vlc_mutex_unlock .object_lock, w0.locks, w0.pl.p_input⟩]
          rfl rfl (hnd _ (by simp))
      · split
        · exact key _ (PL_UNLOCK (input_StopThread env p w0))
            [⟨.input_StopThread p, w0.locks, w0.pl.p_input⟩,
              ⟨.vlc_mutex_unlock .object_lock, w0.locks, some (env.input_StopThread p)⟩]
            rfl (by simp [PL_UNLOCK, input_StopThread]) (hnd _ (by simp))
        · split
          · obtain ⟨w1, evs, e, htr, hev, -⟩ := MainLoop_running_run fuel w0 hfuel0
            exact key (MainLoop_running fuel w0) w1 evs (by rw [e]; rfl) htr
              (hnd _ (fun o ho s => SweepObs_not_destroyThread w0 o (hev o ho) s))
          · exact key _ (PL_UNLOCK w0)
              [⟨.vlc_mutex_unlock .object_lock, w0.locks, w0.pl.p_input⟩]
              rfl rfl (hnd _ (by simp))

/-- C2: in a step that finds the current session dead, `p_input` is NULL when
the engine lock (held) is released, `input_DestroyThread` is the next call and
is made with `p_input` NULL and the engine lock not held, no other call of the
step destroys a session, and `p_input` is NULL when the step ends; the step
returns when the status item is not NULL. -/
theorem C2_clear_unlock_destroy (env : Env) (fuel : Nat) (w : World) (p : input_thread_t)
    (hp : checkedInput env w = some p) (hd : p.b_dead = true) :
    ∃ (w1 : World) (pre post : List Obs), (playlist_MainLoop env fuel w).final = some w1 ∧
      w1.trace = w.trace ++ pre ++
        [⟨.vlc_mutex_unlock .object_lock, w.locks.set .object_lock true, none⟩,
         ⟨.input_DestroyThread p, w.locks.set .object_lock false, none⟩] ++ post ∧
      (∀ o ∈ pre ++ post, ∀ s : input_thread_t, o.call ≠ .input_DestroyThread s) ∧
      (∀ o ∈ post, o.p_input = none ∧ o.held.object_lock = false) ∧
      w1.pl.p_input = none ∧ w1.locks.object_lock = false ∧
      (w.pl.status.p_item ≠ none → playlist_MainLoop env fuel w = .returned w1) := by
  obtain ⟨evs0, ht0, hev0, hl0, -, hpl0, -, -, -⟩ := requestCheck_run env (PL_LOCK w)
  unfold checkedInput at hp
  unfold playlist_MainLoop
  simp only []
  generalize requestCheck env (PL_LOCK w) = w0 at *
  rw [hp]
  simp only []
  rw [if_pos hd]
  obtain ⟨w1, rest, e, htr, hrest, hpi, hlk, hret⟩ := MainLoop_dead_run env p w0
  have hst : w0.pl.status = w.pl.status := by rw [hpl0]; rfl
  have hlk0 : w0.locks = w.locks.set .object_lock true := by rw [hl0]; rfl
  refine ⟨w1, [⟨.vlc_mutex_lock .object_lock, w.locks, w.pl.p_input⟩] ++ evs0,
    [⟨.vlc_object_detach p.obj, w.locks.set .object_lock false, none⟩,
     ⟨.vlc_object_destroy p.obj, w.locks.set .object_lock false, none⟩] ++ rest,
    e, ?_, ?_, ?_, hpi, ?_, ?_⟩
  · rw [htr, ht0, hlk0]
    simp [PL_LOCK]
  · intro o ho s
    simp only [List.mem_append, List.mem_cons, List.mem_singleton, List.not_mem_nil,
      or_false] at ho
    rcases ho with (ho | ho) | (ho | ho) | ho
    · subst ho; simp
    · obtain ⟨q, rfl⟩ := hev0 o ho; simp
    · subst ho; simp
    · subst ho; simp
    · rcases (hrest o ho).2.2 with ⟨i, h⟩ | ⟨v, h⟩ <;> simp [h]
  · intro o ho
    simp only [List.mem_append, List.mem_cons, List.mem_singleton, List.not_mem_nil,
      or_false] at ho
    rcases ho with (ho | ho) | ho
    · subst ho; exact ⟨rfl, by cases w.locks; rfl⟩
    · subst ho; exact ⟨rfl, by cases w.locks; rfl⟩
    · obtain ⟨h1, h2, -⟩ := hrest o ho
      exact ⟨h2, by rw [h1]; cases w0.locks; rfl⟩
  · rw [hlk]; cases w0.locks; rfl
  · intro h
    exact hret (by rw [hst]; exact h)

theorem requestCheck_none (env : Env) (w : World) (h : w.pl.p_input = none) :
    requestCheck env w = w := by
  unfold requestCheck
  rw [h]
  split <;> rfl

theorem startDue_iff (pl : playlist_t) :
    ((!pl.request.b_request && decide (pl.status.i_status ≠ .PLAYLIST_STOPPED)) ||
      (pl.request.b_request && decide (pl.request.i_status ≠ .PLAYLIST_STOPPED))) = true ↔
    startDue pl := by
  unfold startDue
  cases pl.request.b_request <;> simp

theorem SweepObs_not_playItem (w : World) (o : Obs) (h : SweepObs w o) (i : Nat) :
    o.call ≠ .playlist_PlayItem i := by
  obtain ⟨_, ⟨p, h, _⟩ | ⟨h, _⟩ | ⟨l, _, ⟨h, _⟩ | ⟨h, _⟩⟩ | ⟨w1, h, _⟩⟩ := h
  · simp [h]
  · simp [h]
  · simp [h]
  · simp [h]
  · rcases GcObs_call w1 o h with h | h | ⟨p, h | h | h | h⟩ <;> simp [h]

/-- One step of the control loop with no session and nothing to play. -/
theorem MainLoop_exhausted_step (env : Env) (fuel : Nat) (w : World)
    (hin : w.pl.p_input = none) (hnext : ∀ pl, env.playlist_NextItem pl = none)
    (hfuel : w.objects.length < fuel) :
    ∃ (w1 : World) (evs : List Obs), playlist_MainLoop env fuel w = .returned w1 ∧
      w1.trace = w.trace ++ evs ∧ w1.pl.p_input = none ∧
      (∀ o ∈ evs, ∀ i : Nat, o.call ≠ .playlist_PlayItem i) ∧
      (startDue w.pl → w1.pl.status.i_status = .PLAYLIST_STOPPED) ∧
      (w.pl.status.i_status = .PLAYLIST_STOPPED →
        w1.pl.status.i_status = .PLAYLIST_STOPPED) ∧
      w1.locks.object_lock = false ∧ w1.objects.length < fuel := by
  unfold playlist_MainLoop
  simp only []
  rw [requestCheck_none env (PL_LOCK w) hin]
  have hin1 : (PL_LOCK w).pl.p_input = none := hin
  rw [hin1]
  simp only []
  split
  · rename_i hc
    obtain ⟨w1, evs, e, htr, hev, hlk, hob, hst⟩ :=
      MainLoop_start_run env w.pl.play_and_exit (PL_LOCK w)
    obtain ⟨h1, h2, -⟩ := hst (hnext _)
    refine ⟨w1, [⟨.vlc_mutex_lock .object_lock, w.locks, w.pl.p_input⟩] ++ evs, e,
      by rw [htr]; simp [PL_LOCK], by rw [h1]; exact hin, ?_, fun _ => h2, fun _ => h2,
      by rw [hlk]; cases w.locks; rfl, by rw [hob]; exact hfuel⟩
    intro o ho i
    simp only [List.mem_append, List.mem_singleton] at ho
    rcases ho with ho | ho
    · subst ho; simp
    · rcases (hev o ho).2 with h | h | h | ⟨j, _, h⟩ | h
      · simp [h]
      · simp [h]
      · simp [h]
      · rw [hnext] at h; cases h
      · simp [h]
  · rename_i hc
    obtain ⟨w1, evs, e, htr, hev, hpi, hst, -, -, hu, hsub⟩ :=
      MainLoop_idle_run env fuel (PL_LOCK w) hfuel
    refine ⟨w1, [⟨.vlc_mutex_lock .object_lock, w.locks, w.pl.p_input⟩] ++ evs, e,
      by rw [htr]; simp [PL_LOCK], by rw [hpi]; exact hin, ?_, ?_, ?_, ?_, ?_⟩
    · intro o ho i
      simp only [List.mem_append, List.mem_singleton] at ho
      rcases ho with ho | ho
      · subst ho; simp
      · exact SweepObs_not_playItem _ o (hev o ho) i
    · intro hs
      exact absurd ((startDue_iff (PL_LOCK w).pl).mpr hs) hc
    · intro hs
      rw [hst]; exact hs
    · rcases hu with h | h <;> rw [h] <;> cases w.locks <;> rfl
    · have := hsub.length_le
      simp [PL_LOCK] at this
      omega

/-- C9: with no current session and an ordering collaborator that returns no
next entry, any number `n` of steps of the control loop returns, leaves
`p_input` NULL and calls no `playlist_PlayItem`; for `n ≥ 1` the status is
Stopped when a start was due and the engine lock is released; a status that is
Stopped stays Stopped. -/
theorem C9_exhausted_steps_stop (env : Env) (fuel : Nat)
    (hnext : ∀ pl, env.playlist_NextItem pl = none) (n : Nat) :
    ∀ (w : World), w.pl.p_input = none → w.objects.length < fuel →
    ∃ (w1 : World) (evs : List Obs), playlist_MainLoop_steps env fuel n w = .returned w1 ∧
      w1.trace = w.trace ++ evs ∧ w1.pl.p_input = none ∧
      (∀ o ∈ evs, ∀ i : Nat, o.call ≠ .playlist_PlayItem i) ∧
      (1 ≤ n → startDue w.pl → w1.pl.status.i_status = .PLAYLIST_STOPPED) ∧
      (w.pl.status.i_status = .PLAYLIST_STOPPED →
        w1.pl.status.i_status = .PLAYLIST_STOPPED) ∧
      (1 ≤ n → w1.locks.object_lock = false) := by
  induction n with
  | zero =>
    intro w hin _
    exact ⟨w, [], rfl, by simp, hin, by simp, by omega, fun h => h, by omega⟩
  | succ n ih =>
    intro w hin hfuel
    obtain ⟨w1, evs1, e1, htr1, hin1, hno1, hsd1, hst1, hlk1, hfuel1⟩ :=
      MainLoop_exhausted_step env fuel w hin hnext hfuel
    obtain ⟨w2, evs2, e2, htr2, hin2, hno2, -, hst2, hlk2⟩ := ih w1 hin1 hfuel1
    refine ⟨w2, evs1 ++ evs2, ?_, by rw [htr2, htr1, List.append_assoc], hin2, ?_,
      fun _ hs => hst2 (hsd1 hs), fun hs => hst2 (hst1 hs), ?_⟩
    · unfold playlist_MainLoop_steps
      rw [e1]
      exact e2
    · intro o ho i
      rcases List.mem_append.mp ho with ho | ho
      · exact hno1 o ho i
      · exact hno2 o ho i
    · intro _
      cases n with
      | zero =>
        unfold playlist_MainLoop_steps at e2
        cases e2
        exact hlk1
      | succ m => exact hlk2 (by omega)

theorem strncmp_zero (a b : List Char) : strncmp a b 0 = 0 := by
  simp [strncmp]

theorem strncmp_append (s rest : List Char) :
    ∀ (n : Nat), n ≤ s.length → ∀ t : List Char, strncmp (s ++ rest) (s ++ t) n = 0 := by
  induction s with
  | nil =>
    intro n hn t
    have : n = 0 := by simpa using hn
    subst this
    exact strncmp_zero _ _
  | cons a as ih =>
    intro n hn t
    cases n with
    | zero => exact strncmp_zero _ _
    | succ m =>
      simp only [List.cons_append, strncmp, if_true]
      exact ih m (by simpa using hn) t

/-- An URI with a scheme of the exclusion list fails the check of lines
463-470. -/
theorem schemeCheck_excluded (uri : List Char) (s : String) (hs : s ∈ excludedSchemes)
    (hu : uriHasScheme uri s) : schemeCheck uri = false := by
  obtain ⟨rest, rfl⟩ := hu
  unfold schemeCheck
  simp only [excludedSchemes, List.mem_cons, List.mem_singleton, List.not_mem_nil,
    or_false] at hs
  rcases hs with rfl | rfl | rfl | rfl | rfl | rfl | rfl | rfl
  · have h : strncmp ("http".toList ++ ':' :: rest) "http:".toList 5 = 0 :=
      strncmp_append "http:".toList rest 5 (by decide) []
    simp only [h, ne_eq, not_true_eq_false, decide_False, Bool.and_false, Bool.false_and]
  · have h : strncmp ("rtsp".toList ++ ':' :: rest) "rtsp:".toList 5 = 0 :=
      strncmp_append "rtsp:".toList rest 5 (by decide) []
    simp only [h, ne_eq, not_true_eq_false, decide_False, Bool.and_false, Bool.false_and]
  · have h : strncmp ("udp".toList ++ ':' :: rest) "udp:".toList 4 = 0 :=
      strncmp_append "udp:".toList rest 4 (by decide) []
    simp only [h, ne_eq, not_true_eq_false, decide_False, Bool.and_false, Bool.false_and]
  · have h : strncmp ("mms".toList ++ ':' :: rest) "mms:".toList 4 = 0 :=
      strncmp_append "mms:".toList rest 4 (by decide) []
    simp only [h, ne_eq, not_true_eq_false, decide_False, Bool.and_false, Bool.false_and]
  · have h : strncmp ("cdda".toList ++ ':' :: rest) "cdda:".toList 4 = 0 :=
      strncmp_append "cdda".toList (':' :: rest) 4 (by decide) [':']
    simp only [h, ne_eq, not_true_eq_false, decide_False, Bool.and_false, Bool.false_and]
  · have h : strncmp ("dvd".toList ++ ':' :: rest) "dvd:".toList 4 = 0 :=
      strncmp_append "dvd:".toList rest 4 (by decide) []
    simp only [h, ne_eq, not_true_eq_false, decide_False, Bool.and_false, Bool.false_and]
  · have h : strncmp ("v4l".toList ++ ':' :: rest) "v4l:".toList 4 = 0 :=
      strncmp_append "v4l:".toList rest 4 (by decide) []
    simp only [h, ne_eq, not_true_eq_false, decide_False, Bool.and_false, Bool.false_and]
  · have h : strncmp ("dshow".toList ++ ':' :: rest) "dshow:".toList 6 = 0 :=
      strncmp_append "dshow:".toList rest 6 (by decide) []
    simp only [h, ne_eq, not_true_eq_false, decide_False, Bool.and_false, Bool.false_and]

/-- A wake-up of the primary worker on a queue with a non-NULL head `p`. -/
theorem PreparseLoop_head (env : Env) (w : World) (p : Nat) (rest : List (Option Nat))
    (h : w.pl.pp_waiting = some p :: rest) :
    (playlist_PreparseLoop env w).pl.pp_waiting = rest ∧
    (playlist_PreparseLoop env w).pl.p_waiting = w.pl.p_waiting ++ [⟨some p, false⟩] ∧
    (playlist_PreparseLoop env w).pl.activity = w.pl.activity ∧
    (playlist_PreparseLoop env w).pl.p_input = w.pl.p_input ∧
    (playlist_PreparseLoop env w).items =
      (if schemeCheck (w.items p).psz_uri then
        Function.update w.items p (orStatus (env.input_Preparse (w.items p)) env.ITEM_PREPARSED)
      else w.items) ∧
    (playlist_PreparseLoop env w).trace = w.trace ++ replay w.locks w.pl.p_input
      (preparseCalls (schemeCheck (w.items p).psz_uri) p (env.input_Preparse (w.items p)).i_id
        (pollDelay w.pl.activity)) := by
  unfold playlist_PreparseLoop
  simp only [lock_pl, h]
  cases hb : schemeCheck (w.items p).psz_uri
  · simp [hb, PL_LOCK, PL_UNLOCK, replay, preparseCalls, Locks.after, pollDelay]
  · simp [hb, PL_LOCK, PL_UNLOCK, replay, preparseCalls, Locks.after, pollDelay, orStatus]

/-- C3: when the non-NULL head of the primary queue has an URI whose scheme is
in the exclusion list, a wake-up of the primary worker never calls
`input_Preparse`, emits no item-change notification, leaves the items (and so
the Parsed flag of the entry) as they were, and appends the entry to the
secondary queue. -/
theorem C3_excluded_scheme_not_parsed (env : Env) (w : World) (p : Nat)
    (rest : List (Option Nat)) (s : String) (h : w.pl.pp_waiting = some p :: rest)
    (hs : s ∈ excludedSchemes) (hu : uriHasScheme (w.items p).psz_uri s) :
    ∃ evs : List Obs, (playlist_PreparseLoop env w).trace = w.trace ++ evs ∧
      (∀ o ∈ evs, ∀ q : Nat, o.call ≠ .input_Preparse q) ∧
      (∀ o ∈ evs, ∀ v : Int, o.call ≠ .var_SetInteger_item_change v) ∧
      (playlist_PreparseLoop env w).items = w.items ∧
      ((playlist_PreparseLoop env w).items p).i_status = (w.items p).i_status ∧
      (playlist_PreparseLoop env w).pl.p_waiting = w.pl.p_waiting ++ [⟨some p, false⟩] := by
  obtain ⟨-, h2, -, -, h5, h6⟩ := PreparseLoop_head env w p rest h
  have hb := schemeCheck_excluded (w.items p).psz_uri s hs hu
  rw [hb] at h5 h6
  simp only [Bool.false_eq_true, if_false] at h5
  refine ⟨_, h6, ?_, ?_, h5, by rw [h5], h2⟩
  · intro o ho q
    simp only [preparseCalls, replay, Bool.false_eq_true, if_false, List.append_nil,
      List.cons_append, List.nil_append, List.mem_cons, List.not_mem_nil, or_false] at ho
    rcases ho with h | h | h | h | h | h | h | h | h | h | h <;> simp [h]
  · intro o ho v
    simp only [preparseCalls, replay, Bool.false_eq_true, if_false, List.append_nil,
      List.cons_append, List.nil_append, List.mem_cons, List.not_mem_nil, or_false] at ho
    rcases ho with h | h | h | h | h | h | h | h | h | h | h <;> simp [h]

theorem C3_excluded_scheme_not_parsed_witness :
    ∃ evs : List Obs, (playlist_PreparseLoop env0 worldQueue).trace = worldQueue.trace ++ evs ∧
      (∀ o ∈ evs, ∀ q : Nat, o.call ≠ .input_Preparse q) ∧
      (∀ o ∈ evs, ∀ v : Int, o.call ≠ .var_SetInteger_item_change v) ∧
      (playlist_PreparseLoop env0 worldQueue).items = worldQueue.items ∧
      ((playlist_PreparseLoop env0 worldQueue).items 1).i_status =
        (worldQueue.items 1).i_status ∧
      (playlist_PreparseLoop env0 worldQueue).pl.p_waiting =
        worldQueue.pl.p_waiting ++ [⟨some 1, false⟩] :=
  C3_excluded_scheme_not_parsed env0 worldQueue 1 [some 2] "http" rfl (by decide)
    ⟨"//x".toList, by decide⟩

/-- C4: the file name `cdda_rip.ogg` has none of the schemes of the exclusion
list, yet a wake-up of the primary worker on it calls no `input_Preparse`,
leaves the Parsed flag unset and emits no item-change notification: line 467
compares only the four characters `cdda`. -/
theorem C4_cdda_file_name_not_parsed :
    (∀ s ∈ excludedSchemes, ¬ uriHasScheme (worldCdda.items 3).psz_uri s) ∧
    worldCdda.pl.pp_waiting = [some 3] ∧
    (∀ o ∈ (playlist_PreparseLoop env0 worldCdda).trace,
      o.call ≠ .input_Preparse 3 ∧ o.call ≠ .var_SetInteger_item_change 3) ∧
    ((playlist_PreparseLoop env0 worldCdda).items 3).i_status &&& env0.ITEM_PREPARSED = 0 ∧
    strncmp (worldCdda.items 3).psz_uri "cdda:".toList 4 = 0 ∧
    strncmp (worldCdda.items 3).psz_uri "cdda:".toList 5 ≠ 0 := by
  refine ⟨?_, rfl, by decide, by decide, by decide, by decide⟩
  rintro s - ⟨rest, h⟩
  have : ':' ∈ (worldCdda.items 3).psz_uri := by rw [h]; simp
  revert this
  decide

theorem PreparseLoop_empty (env : Env) (w : World) (h : w.pl.pp_waiting = []) :
    (playlist_PreparseLoop env w).pl = w.pl ∧
    (playlist_PreparseLoop env w).items = w.items ∧
    (playlist_PreparseLoop env w).trace = w.trace ++ replay w.locks w.pl.p_input
      [.vlc_mutex_lock .preparse_lock, .vlc_mutex_unlock .preparse_lock] := by
  unfold playlist_PreparseLoop
  simp only [lock_pl, h]
  simp [replay, Locks.after]

theorem wrap64_id (x : Int) (h1 : -9223372036854775808 ≤ x) (h2 : x < 9223372036854775808) :
    wrap64 x = x := by
  unfold wrap64
  omega

/-- C6: with destroy date 0 the collector returns a date that is not zero and
at least one second (1000000 microseconds) after the current time, whatever
the object type and the fuel; it makes no call at all (it takes no mutex and
detaches or destroys nothing) and leaves the object tree, the locks and the
engine as they are.  The second reading of the clock plus one second is
assumed to fit an `mtime_t`. -/
theorem C6_grace_window (fuel : Nat) (i_type : ObjType) (w : World)
    (hrange : (w.now : Int) + (w.ticks.headD 0 : Nat) + 1000000 < 9223372036854775808) :
    ∃ (d : Int) (w1 : World), ObjectGarbageCollector fuel i_type 0 w = some (d, w1) ∧
      (w.now : Int) + 1000000 ≤ d ∧ d ≠ 0 ∧
      d = (w.now : Int) + (w.ticks.headD 0 : Nat) + 1000000 ∧
      w1.trace = w.trace ∧ w1.objects = w.objects ∧ w1.locks = w.locks ∧ w1.pl = w.pl := by
  have hw : wrap64 ((w.now : Int) + (w.ticks.headD 0 : Nat) + 1000000) =
      (w.now : Int) + (w.ticks.headD 0 : Nat) + 1000000 := wrap64_id _ (by omega) hrange
  refine ⟨(w.now : Int) + (w.ticks.headD 0 : Nat) + 1000000, (mdate (mdate w).2).2, ?_,
    by omega, by omega, rfl, rfl, rfl, rfl, rfl⟩
  unfold ObjectGarbageCollector
  have h1 : ¬ ((0 : Int) > (w.now : Int)) := by omega
  simp only [mdate, h1, if_false, if_true]
  rw [← hw]
  simp

theorem C6_grace_window_witness :
    ∃ (d : Int) (w1 : World),
      ObjectGarbageCollector 0 .VLC_OBJECT_VOUT 0 worldVout = some (d, w1) ∧
      (worldVout.now : Int) + 1000000 ≤ d ∧ d ≠ 0 ∧
      d = (worldVout.now : Int) + (worldVout.ticks.headD 0 : Nat) + 1000000 ∧
      w1.trace = worldVout.trace ∧ w1.objects = worldVout.objects ∧
      w1.locks = worldVout.locks ∧ w1.pl = worldVout.pl :=
  C6_grace_window 0 .VLC_OBJECT_VOUT worldVout (by decide)

theorem replay_const (l : Locks) (pi : Option input_thread_t) (cs : List Call)
    (h : ∀ c ∈ cs, l.after c = l) : replay l pi cs = cs.map (fun c => ⟨c, l, pi⟩) := by
  induction cs with
  | nil => rfl
  | cons c cs ih =>
    simp only [replay, List.map_cons]
    rw [h c (List.mem_cons_self _ _)]
    rw [ih (fun c hc => h c (List.mem_cons_of_mem _ hc))]

theorem replay_append_const (l : Locks) (pi : Option input_thread_t) (cs cs2 : List Call)
    (h : ∀ c ∈ cs, l.after c = l) :
    replay l pi (cs ++ cs2) = cs.map (fun c => ⟨c, l, pi⟩) ++ replay l pi cs2 := by
  induction cs with
  | nil => rfl
  | cons c cs ih =>
    show (⟨c, l, pi⟩ : Obs) :: replay (l.after c) pi (cs ++ cs2) = _
    rw [h c (List.mem_cons_self _ _), ih (fun c hc => h c (List.mem_cons_of_mem _ hc))]
    rfl

theorem gcBlock_after (l : Locks) (i_type : ObjType) (p : vlc_object_t) (c : Call)
    (hc : c ∈ gcBlock i_type p) : l.after c = l := by
  rcases gcBlock_obs i_type p c hc with h | h | h | h <;> rw [h] <;> rfl

/-- A sweep on a resource kind whose destroy date is due (not zero and not
after the current time), with more fuel than objects below the engine: it
returns 0; between the lock and the unlock of the collector mutex it made the
calls of one block for each resource of a list `ds`, then possibly the release
of a resource owned by something else, on which it stopped. -/
theorem ObjectGarbageCollector_due (i_type : ObjType) (hk : IsKind i_type) (fuel : Nat)
    (destroy_date : Int) (w : World) (h : w.objects.length < fuel)
    (h0 : destroy_date ≠ 0) (hdue : destroy_date ≤ (w.now : Int)) :
    ∃ (w1 : World) (ds : List vlc_object_t) (tl : List Call),
      ObjectGarbageCollector fuel i_type destroy_date w = some (0, w1) ∧
      w1.trace = w.trace ++ replay w.locks w.pl.p_input
        (.vlc_mutex_lock .gc_lock :: (ds.flatMap (gcBlock i_type) ++ tl) ++
          [.vlc_mutex_unlock .gc_lock]) ∧
      (∀ p ∈ ds, p ∈ w.objects ∧ p.p_parent = w.pl.i_object_id ∧ p.i_object_type = i_type) ∧
      ((tl = [] ∧ vlc_object_find w1 i_type = none) ∨
        ∃ q, vlc_object_find w1 i_type = some q ∧ q.p_parent ≠ w.pl.i_object_id ∧
          tl = [.vlc_object_release q]) ∧
      w1.objects.Sublist w.objects ∧
      (∀ o ∈ w.objects, o ∈ w1.objects ∨ o ∈ ds ∨ o.p_parent ≠ w.pl.i_object_id) := by
  obtain ⟨w1, ds, tl, e1, ⟨f1, -, -, -⟩, f2, -, -, htr, hds, htl, hsub, hcov⟩ :=
    gcLoop_run i_type hk fuel (vlc_mutex_lock .gc_lock (mdate w).2)
      (by simpa [vlc_mutex_lock, call, mdate] using h)
  refine ⟨vlc_mutex_unlock .gc_lock w1, ds, tl, ?_, ?_, hds, ?_, hsub, hcov⟩
  · unfold ObjectGarbageCollector
    have h1a : ¬ ((w.now : Int) < destroy_date) := by omega
    simp only [mdate] at e1 ⊢
    simp only [gt_iff_lt, h1a, h0, if_false, e1]
  · have hc : ∀ c ∈ ds.flatMap (gcBlock i_type) ++ tl,
        (w.locks.set .gc_lock true).after c = w.locks.set .gc_lock true := by
      intro c hc
      rcases List.mem_append.mp hc with hc | hc
      · obtain ⟨p, _, hp⟩ := List.mem_flatMap.mp hc
        exact gcBlock_after _ i_type p c hp
      · rcases htl with ⟨rfl, _⟩ | ⟨q, _, _, rfl⟩
        · simp at hc
        · simp only [List.mem_singleton] at hc
          rw [hc]; rfl
    show w1.trace ++ [⟨.vlc_mutex_unlock .gc_lock, w1.locks, w1.pl.p_input⟩] =
      w.trace ++ (⟨.vlc_mutex_lock .gc_lock, w.locks, w.pl.p_input⟩ ::
        replay (w.locks.set .gc_lock true) w.pl.p_input
          ((ds.flatMap (gcBlock i_type) ++ tl) ++ [.vlc_mutex_unlock .gc_lock]))
    have ho : obsAt (vlc_mutex_lock .gc_lock (mdate w).2) =
        fun c => (⟨c, w.locks.set .gc_lock true, w.pl.p_input⟩ : Obs) := rfl
    rw [replay_append_const _ _ _ _ hc, htr, f2, f1, ho]
    simp [replay, mdate]
  · rcases htl with h | ⟨q, a, b, c⟩
    · exact Or.inl h
    · exact Or.inr ⟨q, a, b, c⟩

theorem replay_calls (l : Locks) (pi : Option input_thread_t) (cs : List Call) :
    (replay l pi cs).map (fun o => o.call) = cs := by
  induction cs generalizing l with
  | nil => rfl
  | cons c cs ih =>
    show c :: (replay (l.after c) pi cs).map (fun o => o.call) = c :: cs
    rw [ih]

theorem mem_replay (l : Locks) (pi : Option input_thread_t) (cs : List Call) (c : Call) :
    (∃ o ∈ replay l pi cs, o.call = c) ↔ c ∈ cs := by
  have h := replay_calls l pi cs
  constructor
  · rintro ⟨o, ho, rfl⟩
    rw [← h]
    exact List.mem_map.mpr ⟨o, ho, rfl⟩
  · intro hc
    rw [← h] at hc
    obtain ⟨o, ho, hoc⟩ := List.mem_map.mp hc
    exact ⟨o, ho, hoc⟩

theorem destructorCall_mem_gcBlock (i_type : ObjType) (p q : vlc_object_t) :
    destructorCall i_type p ∈ gcBlock i_type q ↔ p = q := by
  unfold destructorCall gcBlock
  split <;> simp

theorem destroys_mem_gcBlock (i_type : ObjType) (p q : vlc_object_t) (c : Call)
    (hc : c ∈ gcBlock i_type q) (hd : c.destroys p) : p = q := by
  unfold Call.destroys at hd
  rcases gcBlock_obs i_type q c hc with h | h | h | h <;> rw [h] at hd <;> simp at hd <;>
    exact hd.symm

/-- C7, as stated, fails: with a due destroy date the sweep on `worldNested`
returns 0 after the search met the video output of the input first; the video
output 12, directly under the engine, is never destroyed and remains. -/
theorem C7_nested_resource_stops_sweep :
    (1 : Int) ≠ 0 ∧ (1 : Int) ≤ (worldNested.now : Int) ∧
    ∃ w1 : World,
      ObjectGarbageCollector 4 .VLC_OBJECT_VOUT 1 worldNested = some (0, w1) ∧
      (⟨12, .VLC_OBJECT_VOUT, 1⟩ : vlc_object_t) ∈ worldNested.objects ∧
      (⟨12, .VLC_OBJECT_VOUT, 1⟩ : vlc_object_t).p_parent = worldNested.pl.i_object_id ∧
      (⟨12, .VLC_OBJECT_VOUT, 1⟩ : vlc_object_t) ∈ w1.objects ∧
      ∀ o ∈ w1.trace, o.call ≠ .vout_Destroy ⟨12, .VLC_OBJECT_VOUT, 1⟩ :=
  ⟨by decide, by decide, _, rfl, by decide, rfl, by decide, by decide⟩

/-- C7 (amended): a sweep on a resource kind whose destroy date is due returns
0; the resources it hands to the destructor of the kind are resources of that
kind directly under the engine; it goes on until the search finds no resource
of the kind or one that is owned by something else; when no resource of the
kind below the engine is owned by something else, every one of them is handed
to the destructor and none remains below the engine. -/
theorem C7_due_sweep (i_type : ObjType) (hk : IsKind i_type) (fuel : Nat)
    (destroy_date : Int) (w : World) (hfuel : w.objects.length < fuel)
    (h0 : destroy_date ≠ 0) (hdue : destroy_date ≤ (w.now : Int)) :
    ∃ (w1 : World) (ds : List vlc_object_t) (evs : List Obs),
      ObjectGarbageCollector fuel i_type destroy_date w = some (0, w1) ∧
      w1.trace = w.trace ++ evs ∧
      (∀ p : vlc_object_t, (∃ o ∈ evs, o.call = destructorCall i_type p) ↔ p ∈ ds) ∧
      (∀ p ∈ ds, p ∈ w.objects ∧ p.p_parent = w.pl.i_object_id ∧ p.i_object_type = i_type) ∧
      (vlc_object_find w1 i_type = none ∨
        ∃ q, vlc_object_find w1 i_type = some q ∧ q.p_parent ≠ w.pl.i_object_id) ∧
      ((∀ o ∈ w.objects, o.i_object_type = i_type → o.p_parent = w.pl.i_object_id) →
        (∀ o ∈ w.objects, o.i_object_type = i_type → o ∈ ds) ∧
        (∀ o ∈ w1.objects, o.i_object_type ≠ i_type)) := by
  obtain ⟨w1, ds, tl, e, htr, hds, htl, hsub, hcov⟩ :=
    ObjectGarbageCollector_due i_type hk fuel destroy_date w hfuel h0 hdue
  have hfind : vlc_object_find w1 i_type = none ∨
      ∃ q, vlc_object_find w1 i_type = some q ∧ q.p_parent ≠ w.pl.i_object_id := by
    rcases htl with ⟨_, h⟩ | ⟨q, a, b, _⟩
    · exact Or.inl h
    · exact Or.inr ⟨q, a, b⟩
  refine ⟨w1, ds, _, e, htr, ?_, hds, hfind, ?_⟩
  · intro p
    rw [mem_replay]
    constructor
    · intro hp
      simp only [List.cons_append, List.mem_cons, List.mem_append, List.mem_flatMap,
        List.mem_singleton, List.not_mem_nil, or_false] at hp
      rcases hp with hp | (⟨q, hq, hp⟩ | hp) | hp
      · unfold destructorCall at hp; split at hp <;> cases hp
      · rw [(destructorCall_mem_gcBlock i_type p q).mp hp]; exact hq
      · rcases htl with ⟨rfl, _⟩ | ⟨q, _, _, rfl⟩
        · simp at hp
        · simp only [List.mem_singleton] at hp
          unfold destructorCall at hp; split at hp <;> cases hp
      · unfold destructorCall at hp; split at hp <;> cases hp
    · intro hp
      simp only [List.cons_append, List.mem_cons, List.mem_append, List.mem_flatMap]
      exact Or.inr (Or.inl (Or.inl ⟨p, hp, (destructorCall_mem_gcBlock i_type p p).mpr rfl⟩))
  · intro hall
    have hnone : ∀ o ∈ w1.objects, o.i_object_type ≠ i_type := by
      rcases hfind with h | ⟨q, hq, hqp⟩
      · unfold vlc_object_find at h
        intro o ho
        simpa using (List.find?_eq_none.mp h) o ho
      · obtain ⟨a, b⟩ := find_mem w1 i_type q hq
        exact absurd (hall q (hsub.subset a) b) hqp
    refine ⟨?_, hnone⟩
    intro o ho hot
    rcases hcov o ho with h | h | h
    · exact absurd hot (hnone o h)
    · exact h
    · exact absurd (hall o ho hot) h

theorem C7_due_sweep_witness :
    ∃ (w1 : World) (ds : List vlc_object_t) (evs : List Obs),
      ObjectGarbageCollector 2 .VLC_OBJECT_VOUT 1 worldVout = some (0, w1) ∧
      w1.trace = worldVout.trace ++ evs ∧
      (∀ p : vlc_object_t,
        (∃ o ∈ evs, o.call = destructorCall .VLC_OBJECT_VOUT p) ↔ p ∈ ds) ∧
      (∀ p ∈ ds, p ∈ worldVout.objects ∧ p.p_parent = worldVout.pl.i_object_id ∧
        p.i_object_type = .VLC_OBJECT_VOUT) ∧
      (vlc_object_find w1 .VLC_OBJECT_VOUT = none ∨
        ∃ q, vlc_object_find w1 .VLC_OBJECT_VOUT = some q ∧
          q.p_parent ≠ worldVout.pl.i_object_id) ∧
      ((∀ o ∈ worldVout.objects, o.i_object_type = .VLC_OBJECT_VOUT →
          o.p_parent = worldVout.pl.i_object_id) →
        (∀ o ∈ worldVout.objects, o.i_object_type = .VLC_OBJECT_VOUT → o ∈ ds) ∧
        (∀ o ∈ w1.objects, o.i_object_type ≠ .VLC_OBJECT_VOUT)) :=
  C7_due_sweep .VLC_OBJECT_VOUT (Or.inl rfl) 2 1 worldVout (by decide) (by decide) (by decide)

theorem split_unique {α : Type} (x y : α) (B post : List α) (hB : x ∉ B) :
    ∀ (A pre : List α), x ∉ A → pre ++ x :: post = A ++ y :: B → post = B := by
  intro A
  induction A with
  | nil =>
    intro pre _ h
    cases pre with
    | nil =>
      simp only [List.nil_append, List.cons.injEq] at h
      exact h.2
    | cons a pre =>
      simp only [List.nil_append, List.cons_append, List.cons.injEq] at h
      exact absurd (h.2 ▸ (by simp : x ∈ pre ++ x :: post)) hB
  | cons a A ih =>
    intro pre hA h
    cases pre with
    | nil =>
      simp only [List.nil_append, List.cons_append, List.cons.injEq] at h
      exact absurd (h.1 ▸ List.mem_cons_self _ _) hA
    | cons b pre =>
      simp only [List.cons_append, List.cons.injEq] at h
      exact ih pre (fun hx => hA (List.mem_cons_of_mem _ hx)) h.2

/-- C8: a sweep on a resource kind, whatever the destroy date, detaches and
destroys only resources below the engine whose parent is the engine; when it
releases a resource with another parent, the release is its last call before
the unlock of the collector mutex. -/
theorem C8_only_direct_children (i_type : ObjType) (hk : IsKind i_type) (fuel : Nat)
    (destroy_date : Int) (w : World) (hfuel : w.objects.length < fuel) :
    ∃ (d : Int) (w1 : World) (evs : List Obs),
      ObjectGarbageCollector fuel i_type destroy_date w = some (d, w1) ∧
      w1.trace = w.trace ++ evs ∧
      (∀ o ∈ evs, ∀ p : vlc_object_t, o.call.destroys p →
        p.p_parent = w.pl.i_object_id ∧ p ∈ w.objects) ∧
      (∀ q : vlc_object_t, q.p_parent ≠ w.pl.i_object_id →
        ∀ pre post : List Call,
          evs.map (fun o => o.call) = pre ++ .vlc_object_release q :: post →
          post = [.vlc_mutex_unlock .gc_lock]) := by
  by_cases hdue : destroy_date ≠ 0 ∧ destroy_date ≤ (w.now : Int)
  · obtain ⟨w1, ds, tl, e, htr, hds, htl, -, -⟩ :=
      ObjectGarbageCollector_due i_type hk fuel destroy_date w hfuel hdue.1 hdue.2
    refine ⟨0, w1, _, e, htr, ?_, ?_⟩
    · intro o ho p hd
      have hc : o.call ∈ _ := (mem_replay _ _ _ o.call).mp ⟨o, ho, rfl⟩
      simp only [List.cons_append, List.mem_cons, List.mem_append, List.mem_flatMap,
        List.mem_singleton, List.not_mem_nil, or_false] at hc
      rcases hc with hc | (⟨q, hq, hc⟩ | hc) | hc
      · rw [hc] at hd; simp [Call.destroys] at hd
      · rw [destroys_mem_gcBlock i_type p q o.call hc hd]
        exact ⟨(hds q hq).2.1, (hds q hq).1⟩
      · rcases htl with ⟨rfl, _⟩ | ⟨q, _, _, rfl⟩
        · simp at hc
        · simp only [List.mem_singleton] at hc
          rw [hc] at hd; simp [Call.destroys] at hd
      · rw [hc] at hd; simp [Call.destroys] at hd
    · intro q hq pre post h
      rw [replay_calls] at h
      have hA : Call.vlc_object_release q ∉
          Call.vlc_mutex_lock .gc_lock :: ds.flatMap (gcBlock i_type) := by
        intro hm
        rcases List.mem_cons.mp hm with hm | hm
        · cases hm
        · obtain ⟨p, hp, hc⟩ := List.mem_flatMap.mp hm
          have : q = p := by
            rcases gcBlock_obs i_type p _ hc with h | h | h | h <;> cases h
            rfl
          exact hq (this ▸ (hds p hp).2.1)
      rcases htl with ⟨rfl, _⟩ | ⟨q1, _, _, rfl⟩
      · exfalso
        have hm : Call.vlc_object_release q ∈ pre ++ .vlc_object_release q :: post := by simp
        rw [← h] at hm
        simp only [List.append_nil, List.cons_append, List.mem_cons, List.mem_append,
          List.mem_singleton, reduceCtorEq, or_false, false_or] at hm
        rcases hm with hm | hm
        · exact hA (List.mem_cons_of_mem _ hm)
        · simp at hm
      · refine split_unique (.vlc_object_release q) (.vlc_object_release q1)
          [.vlc_mutex_unlock .gc_lock] post (by simp)
          (.vlc_mutex_lock .gc_lock :: ds.flatMap (gcBlock i_type)) pre hA ?_
        rw [← h]
        simp
  · have hnd : destroy_date = 0 ∨ destroy_date > (w.now : Int) := by
      by_cases h : destroy_date = 0
      · exact Or.inl h
      · right
        by_contra hc
        exact hdue ⟨h, by omega⟩
    unfold ObjectGarbageCollector
    by_cases h1 : destroy_date > (w.now : Int)
    · exact ⟨destroy_date, (mdate w).2, [], by simp [h1, mdate], by simp [mdate], by simp,
        by simp⟩
    · have h2 : destroy_date = 0 := by
        rcases hnd with h | h
        · exact h
        · exact absurd h h1
      subst h2
      exact ⟨wrap64 ((mdate (mdate w).2).1 + 1000000), (mdate (mdate w).2).2, [],
        by simp [h1, mdate], by simp [mdate], by simp, by simp⟩

theorem C8_only_direct_children_witness :
    ∃ (d : Int) (w1 : World) (evs : List Obs),
      ObjectGarbageCollector 4 .VLC_OBJECT_VOUT 1 worldNested = some (d, w1) ∧
      w1.trace = worldNested.trace ++ evs ∧
      (∀ o ∈ evs, ∀ p : vlc_object_t, o.call.destroys p →
        p.p_parent = worldNested.pl.i_object_id ∧ p ∈ worldNested.objects) ∧
      (∀ q : vlc_object_t, q.p_parent ≠ worldNested.pl.i_object_id →
        ∀ pre post : List Call,
          evs.map (fun o => o.call) = pre ++ .vlc_object_release q :: post →
          post = [.vlc_mutex_unlock .gc_lock]) :=
  C8_only_direct_children .VLC_OBJECT_VOUT (Or.inl rfl) 4 1 worldNested (by decide)

/-- A wake-up of the primary worker on a queue with a NULL head. -/
theorem PreparseLoop_null (env : Env) (w : World) (rest : List (Option Nat))
    (h : w.pl.pp_waiting = none :: rest) :
    (playlist_PreparseLoop env w).pl.pp_waiting = rest ∧
    (playlist_PreparseLoop env w).pl.p_waiting = w.pl.p_waiting ∧
    (playlist_PreparseLoop env w).items = w.items ∧
    (playlist_PreparseLoop env w).trace = w.trace ++ replay w.locks w.pl.p_input
      [.vlc_mutex_lock .preparse_lock, .vlc_mutex_unlock .preparse_lock,
        .vlc_mutex_lock .object_lock, .vlc_mutex_unlock .object_lock,
        .vlc_mutex_lock .preparse_lock, .vlc_mutex_unlock .preparse_lock,
        .msleep (pollDelay w.pl.activity)] := by
  unfold playlist_PreparseLoop
  simp only [lock_pl, h]
  simp [PL_LOCK, PL_UNLOCK, replay, Locks.after, pollDelay]

/-- A wake-up of the secondary worker on a queue with a non-NULL head. -/
theorem SecondaryPreparseLoop_head (env : Env) (w : World) (p : Nat) (b : Bool)
    (rest : List preparse_item_t) (h : w.pl.p_waiting = ⟨some p, b⟩ :: rest) :
    ∃ i_id : Int,
    (playlist_SecondaryPreparseLoop env w).pl.p_waiting = rest ∧
    (playlist_SecondaryPreparseLoop env w).trace = w.trace ++ replay w.locks w.pl.p_input
      (secondaryCalls b p i_id) := by
  unfold playlist_SecondaryPreparseLoop
  simp only [lock_pl, h]
  cases b
  · exact ⟨_, by simp, by simp [replay, secondaryCalls, Locks.after]; rfl⟩
  · exact ⟨_, by simp, by simp [replay, secondaryCalls, Locks.after]; rfl⟩

/-- A wake-up of the secondary worker on a queue with a NULL head. -/
theorem SecondaryPreparseLoop_null (env : Env) (w : World) (b : Bool)
    (rest : List preparse_item_t) (h : w.pl.p_waiting = ⟨none, b⟩ :: rest) :
    (playlist_SecondaryPreparseLoop env w).pl.p_waiting = rest ∧
    (playlist_SecondaryPreparseLoop env w).trace = w.trace ++ replay w.locks w.pl.p_input
      [.vlc_mutex_lock .secondary_lock, .vlc_mutex_unlock .secondary_lock,
        .vlc_mutex_unlock .object_lock] := by
  unfold playlist_SecondaryPreparseLoop
  simp only [lock_pl, h]
  simp [PL_UNLOCK, replay, Locks.after]

/-- A wake-up of the secondary worker on an empty queue. -/
theorem SecondaryPreparseLoop_empty (env : Env) (w : World) (h : w.pl.p_waiting = []) :
    (playlist_SecondaryPreparseLoop env w).pl = w.pl ∧
    (playlist_SecondaryPreparseLoop env w).trace = w.trace ++ replay w.locks w.pl.p_input
      [.vlc_mutex_lock .secondary_lock, .vlc_mutex_unlock .secondary_lock] := by
  unfold playlist_SecondaryPreparseLoop
  simp only [lock_pl, h]
  simp [replay, Locks.after]

theorem replayFree_sound (pi : Option input_thread_t) (cs : List Call) :
    ∀ l : Locks, replayFree l cs = true →
      ∀ o ∈ replay l pi cs, o.call.blocking = true → o.held = Locks.free := by
  induction cs with
  | nil => intro l _ o ho; simp [replay] at ho
  | cons c cs ih =>
    intro l h o ho
    simp only [replayFree, Bool.and_eq_true, Bool.or_eq_true, Bool.not_eq_true',
      decide_eq_true_eq] at h
    simp only [replay, List.mem_cons] at ho
    rcases ho with ho | ho
    · subst ho
      intro hb
      rcases h.1 with h1 | h1
      · simp only [] at hb; rw [h1] at hb; cases hb
      · exact h1
    · exact ih _ h.2 o ho

theorem GcObs_blocking (w : World) (o : Obs) (h : GcObs w o) (hl : w.locks = Locks.free) :
    BlockingUnlocked o := by
  intro hb
  obtain ⟨_, ⟨hc, _⟩ | ⟨hh, hc | ⟨p, hc | ⟨_, _, hc | hc | hc⟩⟩⟩⟩ := h
  · rw [hc] at hb; cases hb
  · rw [hc] at hb; cases hb
  · rw [hc] at hb; cases hb
  · rw [hc] at hb; cases hb
  · exact Or.inl ⟨by rw [hc]; rfl, by rw [hh, hl]⟩
  · exact Or.inl ⟨by rw [hc]; rfl, by rw [hh, hl]⟩

theorem SweepObs_blocking (w : World) (o : Obs) (h : SweepObs w o)
    (hl : w.locks = Locks.free.set .object_lock true) : BlockingUnlocked o := by
  obtain ⟨_, ⟨p, hc, _⟩ | ⟨hc, _⟩ | ⟨l, _, ⟨hc, _⟩ | ⟨hc, _⟩⟩ | ⟨w1, hg, hu, _⟩⟩ := h
  · intro hb; rw [hc] at hb; cases hb
  · intro hb; rw [hc] at hb; cases hb
  · intro hb; rw [hc] at hb; cases hb
  · intro hb; rw [hc] at hb; cases hb
  · refine GcObs_blocking w1 o hg ?_
    rcases hu with h | h <;> rw [h, hl] <;> rfl

theorem MainLoop_blocking (env : Env) (fuel : Nat) (w : World)
    (hfuel : w.objects.length < fuel) (hfree : w.locks = Locks.free) :
    ∃ (w1 : World) (evs : List Obs), (playlist_MainLoop env fuel w).final = some w1 ∧
      w1.trace = w.trace ++ evs ∧ ∀ o ∈ evs, BlockingUnlocked o := by
  obtain ⟨evs0, ht0, hev0, hl0, ho0, -, -, -, -⟩ := requestCheck_run env (PL_LOCK w)
  unfold playlist_MainLoop
  simp only []
  generalize requestCheck env (PL_LOCK w) = w0 at *
  have hfuel0 : w0.objects.length < fuel := by rw [ho0]; exact hfuel
  have hlk0 : w0.locks = Locks.free.set .object_lock true := by rw [hl0, ← hfree]; rfl
  have key : ∀ (r : Run) (w1 : World) (evs : List Obs), r.final = some w1 →
      w1.trace = w0.trace ++ evs → (∀ o ∈ evs, BlockingUnlocked o) →
      ∃ (w1 : World) (evs : List Obs), r.final = some w1 ∧
        w1.trace = w.trace ++ evs ∧ ∀ o ∈ evs, BlockingUnlocked o := by
    intro r w1 evs h1 h2 h3
    refine ⟨w1, [⟨.vlc_mutex_lock .object_lock, w.locks, w.pl.p_input⟩] ++ evs0 ++ evs, h1,
      by rw [h2, ht0]; simp [PL_LOCK], ?_⟩
    intro o ho
    simp only [List.mem_append, List.mem_singleton] at ho
    rcases ho with (ho | ho) | ho
    · subst ho; intro hb; cases hb
    · obtain ⟨p, rfl⟩ := hev0 o ho
      intro hb; cases hb
    · exact h3 o ho
  split
  case h_2 hp =>
    split
    · obtain ⟨w1, evs, e, htr, hev, -⟩ := MainLoop_start_run env w.pl.play_and_exit w0
      refine key (MainLoop_start env w.pl.play_and_exit w0) w1 evs (by rw [e]; rfl) htr ?_
      intro o ho hb
      rcases (hev o ho).2 with h | h | h | ⟨i, h, _⟩ | h <;> rw [h] at hb <;> cases hb
    · obtain ⟨w1, evs, e, htr, hev, -⟩ := MainLoop_idle_run env fuel w0 hfuel0
      exact key (MainLoop_idle env fuel w0) w1 evs (by rw [e]; rfl) htr
        (fun o ho => SweepObs_blocking w0 o (hev o ho) hlk0)
  case h_1 p hp =>
    split
    · obtain ⟨w1, rest, e, htr, hrest, -⟩ := MainLoop_dead_run env p w0
      refine key (MainLoop_dead env p w0) w1 _ e (by rw [htr, List.append_assoc]) ?_
      intro o ho hb
      simp only [List.mem_append, List.mem_cons, List.not_mem_nil, or_false] at ho
      rcases ho with (ho | ho | ho | ho) | ho
      · subst ho; cases hb
      · subst ho; exact Or.inr ⟨rfl, by simp only []; rw [hlk0]; rfl⟩
      · subst ho; cases hb
      · subst ho; cases hb
      · rcases (hrest o ho).2.2 with ⟨i, h⟩ | ⟨v, h⟩ <;> rw [h] at hb <;> cases hb
    · split
      · exact key _ (PL_UNLOCK w0) [⟨.vlc_mutex_unlock .object_lock, w0.locks, w0.pl.p_input⟩]
          rfl rfl (by intro o ho hb; simp only [List.mem_singleton] at ho; subst ho; cases hb)
      · split
        · refine key _ (PL_UNLOCK (input_StopThread env p w0))
            [⟨.input_StopThread p, w0.locks, w0.pl.p_input⟩,
              ⟨.vlc_mutex_unlock .object_lock, w0.locks, some (env.input_StopThread p)⟩]
            rfl (by simp [PL_UNLOCK, input_StopThread]) ?_
          intro o ho hb
          simp only [List.mem_cons, List.mem_singleton, List.not_mem_nil, or_false] at ho
          rcases ho with ho | ho <;> subst ho <;> cases hb
        · split
          · obtain ⟨w1, evs, e, htr, hev, -⟩ := MainLoop_running_run fuel w0 hfuel0
            exact key (MainLoop_running fuel w0) w1 evs (by rw [e]; rfl) htr
              (fun o ho => SweepObs_blocking w0 o (hev o ho) hlk0)
          · exact key _ (PL_UNLOCK w0)
              [⟨.vlc_mutex_unlock .object_lock, w0.locks, w0.pl.p_input⟩]
              rfl rfl (by intro o ho hb; simp only [List.mem_singleton] at ho; subst ho; cases hb)

theorem PreparseLoop_blocking (env : Env) (w : World) (hfree : w.locks = Locks.free) :
    ∃ evs : List Obs, (playlist_PreparseLoop env w).trace = w.trace ++ evs ∧
      ∀ o ∈ evs, o.call.blocking = true → o.held = Locks.free := by
  cases h : w.pl.pp_waiting with
  | nil =>
    obtain ⟨-, -, htr⟩ := PreparseLoop_empty env w h
    exact ⟨_, htr, replayFree_sound _ _ _ (by rw [hfree]; rfl)⟩
  | cons hd rest =>
    cases hd with
    | none =>
      obtain ⟨-, -, -, htr⟩ := PreparseLoop_null env w rest h
      exact ⟨_, htr, replayFree_sound _ _ _ (by rw [hfree]; rfl)⟩
    | some p =>
      obtain ⟨-, -, -, -, -, htr⟩ := PreparseLoop_head env w p rest h
      refine ⟨_, htr, replayFree_sound _ _ _ ?_⟩
      rw [hfree]
      cases schemeCheck (w.items p).psz_uri <;> rfl

theorem SecondaryPreparseLoop_blocking (env : Env) (w : World)
    (hfree : w.locks = Locks.free) :
    ∃ evs : List Obs, (playlist_SecondaryPreparseLoop env w).trace = w.trace ++ evs ∧
      ∀ o ∈ evs, o.call.blocking = true → o.held = Locks.free := by
  cases h : w.pl.p_waiting with
  | nil =>
    obtain ⟨-, htr⟩ := SecondaryPreparseLoop_empty env w h
    exact ⟨_, htr, replayFree_sound _ _ _ (by rw [hfree]; rfl)⟩
  | cons hd rest =>
    obtain ⟨p_item, b⟩ := hd
    cases p_item with
    | none =>
      obtain ⟨-, htr⟩ := SecondaryPreparseLoop_null env w b rest h
      exact ⟨_, htr, replayFree_sound _ _ _ (by rw [hfree]; rfl)⟩
    | some p =>
      obtain ⟨i_id, -, htr⟩ := SecondaryPreparseLoop_head env w p b rest h
      refine ⟨_, htr, replayFree_sound _ _ _ ?_⟩
      rw [hfree]
      cases b <;> rfl

/-- C10, as stated, fails: entered with no mutex held, the control loop and
the collector call the blocking `vout_Destroy` while the collector mutex is
held. -/
theorem C10_destructor_under_collector_lock :
    worldVout.locks = Locks.free ∧
    (∃ w1 : World, playlist_MainLoop env0 2 worldVout = .returned w1 ∧
      ∃ o ∈ w1.trace, o.call = .vout_Destroy ⟨12, .VLC_OBJECT_VOUT, 1⟩ ∧
        o.call.blocking = true ∧ o.held.gc_lock = true) ∧
    (∃ w1 : World, ObjectGarbageCollector 2 .VLC_OBJECT_VOUT 1 worldVout = some (0, w1) ∧
      ∃ o ∈ w1.trace, o.call = .vout_Destroy ⟨12, .VLC_OBJECT_VOUT, 1⟩ ∧
        o.call.blocking = true ∧ o.held.gc_lock = true) :=
  ⟨rfl, ⟨_, rfl, by decide⟩, ⟨_, rfl, by decide⟩⟩

/-- C10 (amended): in an execution of `playlist_MainLoop`,
`ObjectGarbageCollector`, `playlist_PreparseLoop` or
`playlist_SecondaryPreparseLoop` entered with no mutex held, a blocking call
(session destroy, resource destructor, parse, metadata fetch, art fetch,
sleep) is made with no engine lock and no queue lock held; the collector mutex
is held, alone, at every call of the two resource destructors and at no other
blocking call, and the workers make their blocking calls with no mutex held at
all. -/
theorem C10_blocking_calls_unlocked (env : Env) (fuel : Nat) (i_type : ObjType)
    (hk : IsKind i_type) (destroy_date : Int) (w : World)
    (hfuel : w.objects.length < fuel) (hfree : w.locks = Locks.free) :
    (∃ (w1 : World) (evs : List Obs), (playlist_MainLoop env fuel w).final = some w1 ∧
      w1.trace = w.trace ++ evs ∧ ∀ o ∈ evs, BlockingUnlocked o) ∧
    (∃ (d : Int) (w1 : World) (evs : List Obs),
      ObjectGarbageCollector fuel i_type destroy_date w = some (d, w1) ∧
      w1.trace = w.trace ++ evs ∧ ∀ o ∈ evs, BlockingUnlocked o) ∧
    (∃ evs : List Obs, (playlist_PreparseLoop env w).trace = w.trace ++ evs ∧
      ∀ o ∈ evs, o.call.blocking = true → o.held = Locks.free) ∧
    (∃ evs : List Obs, (playlist_SecondaryPreparseLoop env w).trace = w.trace ++ evs ∧
      ∀ o ∈ evs, o.call.blocking = true → o.held = Locks.free) := by
  refine ⟨MainLoop_blocking env fuel w hfuel hfree, ?_, PreparseLoop_blocking env w hfree,
    SecondaryPreparseLoop_blocking env w hfree⟩
  obtain ⟨d, w1, evs, e, -, -, -, htr, hev⟩ :=
    ObjectGarbageCollector_run i_type hk fuel destroy_date w hfuel
  exact ⟨d, w1, evs, e, htr, fun o ho => GcObs_blocking w o (hev o ho) hfree⟩

theorem C10_blocking_calls_unlocked_witness :
    (∃ (w1 : World) (evs : List Obs), (playlist_MainLoop env0 2 worldWork).final = some w1 ∧
      w1.trace = worldWork.trace ++ evs ∧ ∀ o ∈ evs, BlockingUnlocked o) ∧
    (∃ (d : Int) (w1 : World) (evs : List Obs),
      ObjectGarbageCollector 2 .VLC_OBJECT_VOUT 1 worldWork = some (d, w1) ∧
      w1.trace = worldWork.trace ++ evs ∧ ∀ o ∈ evs, BlockingUnlocked o) ∧
    (∃ evs : List Obs, (playlist_PreparseLoop env0 worldWork).trace = worldWork.trace ++ evs ∧
      ∀ o ∈ evs, o.call.blocking = true → o.held = Locks.free) ∧
    (∃ evs : List Obs,
      (playlist_SecondaryPreparseLoop env0 worldWork).trace = worldWork.trace ++ evs ∧
      ∀ o ∈ evs, o.call.blocking = true → o.held = Locks.free) :=
  C10_blocking_calls_unlocked env0 2 .VLC_OBJECT_VOUT (Or.inl rfl) 1 worldWork (by decide) rfl

theorem C1_destroy_iff_dead_witness :
    ∃ (w1 : World) (evs : List Obs), (playlist_MainLoop env0 2 worldDead).final = some w1 ∧
      w1.trace = worldDead.trace ++ evs ∧
      ∀ s : input_thread_t, (∃ o ∈ evs, o.call = .input_DestroyThread s) ↔
        (checkedInput env0 worldDead = some s ∧ s.b_dead = true) :=
  C1_destroy_iff_dead env0 2 worldDead (by decide)

theorem C2_clear_unlock_destroy_witness :
    ∃ (w1 : World) (pre post : List Obs),
      (playlist_MainLoop env0 2 worldDead).final = some w1 ∧
      w1.trace = worldDead.trace ++ pre ++
        [⟨.vlc_mutex_unlock .object_lock, worldDead.locks.set .object_lock true, none⟩,
         ⟨.input_DestroyThread deadInput, worldDead.locks.set .object_lock false, none⟩] ++
        post ∧
      (∀ o ∈ pre ++ post, ∀ s : input_thread_t, o.call ≠ .input_DestroyThread s) ∧
      (∀ o ∈ post, o.p_input = none ∧ o.held.object_lock = false) ∧
      w1.pl.p_input = none ∧ w1.locks.object_lock = false ∧
      (worldDead.pl.status.p_item ≠ none →
        playlist_MainLoop env0 2 worldDead = .returned w1) :=
  C2_clear_unlock_destroy env0 2 worldDead deadInput (by decide) rfl

theorem C9_exhausted_steps_stop_witness :
    startDue worldStartDue.pl ∧
    ∃ (w1 : World) (evs : List Obs),
      playlist_MainLoop_steps env0 1 3 worldStartDue = .returned w1 ∧
      w1.trace = worldStartDue.trace ++ evs ∧ w1.pl.p_input = none ∧
      (∀ o ∈ evs, ∀ i : Nat, o.call ≠ .playlist_PlayItem i) ∧
      (1 ≤ 3 → startDue worldStartDue.pl → w1.pl.status.i_status = .PLAYLIST_STOPPED) ∧
      (worldStartDue.pl.status.i_status = .PLAYLIST_STOPPED →
        w1.pl.status.i_status = .PLAYLIST_STOPPED) ∧
      (1 ≤ 3 → w1.locks.object_lock = false) :=
  ⟨Or.inl ⟨rfl, by decide⟩,
    C9_exhausted_steps_stop env0 1 (fun _ => rfl) 3 worldStartDue rfl (by decide)⟩

theorem wrap32_id (x : Int) (h1 : -2147483648 ≤ x) (h2 : x < 2147483648) :
    wrap32 x = x := by
  unfold wrap32
  omega

/-- The dead branch of the control loop when the status item is not NULL. -/
theorem MainLoop_dead_effects (env : Env) (p : input_thread_t) (w : World) (item : Nat)
    (hitem : w.pl.status.p_item = some item) :
    ∃ (w1 : World) (evs : List Obs), MainLoop_dead env p w = .returned w1 ∧
      w1.trace = w.trace ++ evs ∧
      w1.pl.i_vout_destroyed_date = 0 ∧ w1.pl.i_sout_destroyed_date = 0 ∧
      w1.pl.activity = wrap32 (w.pl.activity - env.DEFAULT_INPUT_ACTIVITY) ∧
      (∃ o ∈ evs, o.call =
        .var_SetInteger_activity (wrap32 (w.pl.activity - env.DEFAULT_INPUT_ACTIVITY))) ∧
      w1.pl.status.i_status = w.pl.status.i_status ∧
      w1.pl.request.b_request = w.pl.request.b_request ∧
      w1.pl.request.i_status = w.pl.request.i_status ∧
      (removalFlagged env w item →
        (evs.map (fun o => o.call)).filter Call.isItemDelete = [.playlist_ItemDelete item] ∧
        w1.pl.status.p_item = none ∧
        w1.pl.request.p_item =
          (if w.pl.request.p_item = some item then none else w.pl.request.p_item)) ∧
      (¬ removalFlagged env w item →
        (evs.map (fun o => o.call)).filter Call.isItemDelete = [] ∧
        w1.pl.status.p_item = some item ∧
        w1.pl.request.p_item = w.pl.request.p_item) := by
  unfold MainLoop_dead removalFlagged
  simp only [PL_UNLOCK, vlc_object_detach, call_pl, unlock_pl, call_playlist_items,
      unlock_playlist_items, hitem]
  by_cases hf : (w.playlist_items item).i_flags &&& env.PLAYLIST_REMOVE_FLAG ≠ 0
  · rw [if_pos hf]
    by_cases hr : w.pl.request.p_item = some item
    · rw [if_pos hr]
      refine ⟨_, [⟨.vlc_mutex_unlock .object_lock, w.locks, none⟩,
          ⟨.input_DestroyThread p, w.locks.set .object_lock false, none⟩,
          ⟨.vlc_object_detach p.obj, w.locks.set .object_lock false, none⟩,
          ⟨.vlc_object_destroy p.obj, w.locks.set .object_lock false, none⟩,
          ⟨.playlist_ItemDelete item, w.locks.set .object_lock false, none⟩,
          ⟨.var_SetInteger_activity (wrap32 (w.pl.activity - env.DEFAULT_INPUT_ACTIVITY)),
            w.locks.set .object_lock false, none⟩],
        rfl, by simp, rfl, rfl, rfl, ⟨⟨.var_SetInteger_activity (wrap32 (w.pl.activity - env.DEFAULT_INPUT_ACTIVITY)),
          w.locks.set .object_lock false, none⟩, by simp, rfl⟩, rfl, rfl, rfl, ?_, ?_⟩
      · intro _
        exact ⟨by simp [Call.isItemDelete], rfl, by rw [if_pos hr]⟩
      · intro h; exact absurd hf h
    · rw [if_neg hr]
      refine ⟨_, [⟨.vlc_mutex_unlock .object_lock, w.locks, none⟩,
          ⟨.input_DestroyThread p, w.locks.set .object_lock false, none⟩,
          ⟨.vlc_object_detach p.obj, w.locks.set .object_lock false, none⟩,
          ⟨.vlc_object_destroy p.obj, w.locks.set .object_lock false, none⟩,
          ⟨.playlist_ItemDelete item, w.locks.set .object_lock false, none⟩,
          ⟨.var_SetInteger_activity (wrap32 (w.pl.activity - env.DEFAULT_INPUT_ACTIVITY)),
            w.locks.set .object_lock false, none⟩],
        rfl, by simp, rfl, rfl, rfl, ⟨⟨.var_SetInteger_activity (wrap32 (w.pl.activity - env.DEFAULT_INPUT_ACTIVITY)),
          w.locks.set .object_lock false, none⟩, by simp, rfl⟩, rfl, rfl, rfl, ?_, ?_⟩
      · intro _
        exact ⟨by simp [Call.isItemDelete], rfl, (if_neg hr).symm⟩
      · intro h; exact absurd hf h
  · rw [if_neg hf]
    refine ⟨_, [⟨.vlc_mutex_unlock .object_lock, w.locks, none⟩,
          ⟨.input_DestroyThread p, w.locks.set .object_lock false, none⟩,
          ⟨.vlc_object_detach p.obj, w.locks.set .object_lock false, none⟩,
          ⟨.vlc_object_destroy p.obj, w.locks.set .object_lock false, none⟩,
          ⟨.var_SetInteger_activity (wrap32 (w.pl.activity - env.DEFAULT_INPUT_ACTIVITY)),
            w.locks.set .object_lock false, none⟩],
      rfl, by simp, rfl, rfl, rfl, ⟨⟨.var_SetInteger_activity (wrap32 (w.pl.activity - env.DEFAULT_INPUT_ACTIVITY)),
          w.locks.set .object_lock false, none⟩, by simp, rfl⟩, rfl, rfl, rfl, ?_, ?_⟩
    · intro h; exact absurd h hf
    · intro _
      exact ⟨by simp [Call.isItemDelete], hitem, rfl⟩

/-- A step of the control loop that finds the current session dead while the
status item is not NULL returns; it sets both destroy dates to 0, takes one
`DEFAULT_INPUT_ACTIVITY` off the activity (as a C `int`), and deletes the
status item, once, exactly when it carries the removal flag, clearing
`status.p_item` and a request target that pointed at it. -/
theorem MainLoop_dead_step_effects (env : Env) (fuel : Nat) (w : World)
    (p : input_thread_t) (item : Nat)
    (hp : checkedInput env w = some p) (hd : p.b_dead = true)
    (hitem : w.pl.status.p_item = some item) :
    ∃ (w1 : World) (evs : List Obs), playlist_MainLoop env fuel w = .returned w1 ∧
      w1.trace = w.trace ++ evs ∧
      w1.pl.i_vout_destroyed_date = 0 ∧ w1.pl.i_sout_destroyed_date = 0 ∧
      w1.pl.activity = wrap32 (w.pl.activity - env.DEFAULT_INPUT_ACTIVITY) ∧
      (removalFlagged env w item →
        (evs.map (fun o => o.call)).filter Call.isItemDelete = [.playlist_ItemDelete item] ∧
        w1.pl.status.p_item = none ∧
        w1.pl.request.p_item =
          (if w.pl.request.p_item = some item then none else w.pl.request.p_item) ∧
        w1.pl.request.p_item ≠ some item) ∧
      (¬ removalFlagged env w item →
        (evs.map (fun o => o.call)).filter Call.isItemDelete = [] ∧
        w1.pl.status.p_item = some item ∧
        w1.pl.request.p_item = w.pl.request.p_item) := by
  obtain ⟨evs0, ht0, hev0, -, -, hpl0, hpi0, -, -⟩ := requestCheck_run env (PL_LOCK w)
  unfold checkedInput at hp
  unfold playlist_MainLoop
  simp only []
  generalize requestCheck env (PL_LOCK w) = w0 at *
  rw [hp]
  simp only []
  rw [if_pos hd]
  have hst : w0.pl.status = w.pl.status := by rw [hpl0]; rfl
  have hrq : w0.pl.request = w.pl.request := by rw [hpl0]; rfl
  have hac : w0.pl.activity = w.pl.activity := by rw [hpl0]; rfl
  have hfl : removalFlagged env w0 item ↔ removalFlagged env w item := by
    unfold removalFlagged; rw [hpi0]; rfl
  obtain ⟨w1, evs, e, htr, hv, hs, ha, -, -, -, -, hyes, hno⟩ :=
    MainLoop_dead_effects env p w0 item (by rw [hst]; exact hitem)
  have hcalls : ((([⟨.vlc_mutex_lock .object_lock, w.locks, w.pl.p_input⟩] ++ evs0 ++
      evs : List Obs).map (fun o => o.call)).filter Call.isItemDelete) =
      (evs.map (fun o => o.call)).filter Call.isItemDelete := by
    have h0 : (evs0.map (fun o => o.call)).filter Call.isItemDelete = [] := by
      rw [List.filter_eq_nil_iff]
      intro c hc
      obtain ⟨o, ho, rfl⟩ := List.mem_map.mp hc
      obtain ⟨q, rfl⟩ := hev0 o ho
      simp [Call.isItemDelete]
    simp [List.filter_append, h0, Call.isItemDelete]
  refine ⟨w1, [⟨.vlc_mutex_lock .object_lock, w.locks, w.pl.p_input⟩] ++ evs0 ++ evs, e,
    by rw [htr, ht0]; simp [PL_LOCK], hv, hs, by rw [ha, hac], ?_, ?_⟩
  · intro h
    obtain ⟨a, b, c⟩ := hyes (hfl.mpr h)
    rw [hrq] at c
    refine ⟨by rw [hcalls]; exact a, b, c, ?_⟩
    rw [c]
    split
    · simp
    · assumption
  · intro h
    obtain ⟨a, b, c⟩ := hno (fun h1 => h (hfl.mp h1))
    exact ⟨by rw [hcalls]; exact a, b, by rw [c, hrq]⟩

/-- The step on a state with a dead session and a NULL status item, a state the
engine is not in (it sets `status.p_item` to NULL only when there is no
session, lines 121, 280 and 356): after the destroy and the reset of both
destroy dates, line 272 reads `status.p_item->i_flags`, and the step does not
return. -/
theorem MainLoop_dead_null_item_fault :
    checkedInput env0 worldDeadNoItem = some deadInput ∧ deadInput.b_dead = true ∧
    worldDeadNoItem.pl.status.p_item = none ∧
    ∃ w1 : World, playlist_MainLoop env0 2 worldDeadNoItem = .fault w1 ∧
      w1.pl.i_vout_destroyed_date = 0 ∧ w1.pl.i_sout_destroyed_date = 0 ∧
      w1.pl.activity = worldDeadNoItem.pl.activity ∧
      w1.pl.activity ≠ worldDeadNoItem.pl.activity - env0.DEFAULT_INPUT_ACTIVITY ∧
      w1.trace.map (fun o => o.call) =
        [.vlc_mutex_lock .object_lock, .vlc_mutex_unlock .object_lock,
          .input_DestroyThread deadInput, .vlc_object_detach deadInput.obj,
          .vlc_object_destroy deadInput.obj] :=
  ⟨by decide, rfl, rfl, _, rfl, rfl, rfl, rfl, by decide, by decide⟩

theorem pollDelay_in_range (a : Int) (h1 : -2147483648 ≤ a) (h2 : a ≤ 2147482) :
    pollDelay a = (max a 0 + 1) * 1000 := by
  unfold pollDelay
  by_cases h : a < 0
  · rw [if_pos h, max_eq_right (by omega)]
    unfold wrap32
    omega
  · rw [if_neg h, max_eq_left (by omega)]
    unfold wrap32
    omega

/-- C12: with the activity 2147483 a wake-up of the primary worker that pops
an entry asks for a sleep of -2147483296 microseconds: the product
`(i_activity+1) * 1000` of line 519 is computed as a C `int` and does not fit.
The delay is not `(max(activity, 0) + 1) * 1000`, it is below one unit, and it
is smaller than the delay for the activity 2147482. -/
theorem C12_large_activity_delay_wraps :
    worldBusy.pl.activity = 2147483 ∧ worldBusy.pl.pp_waiting = [some 2] ∧
    (max worldBusy.pl.activity 0 + 1) * 1000 = 2147484000 ∧
    (∃ o ∈ (playlist_PreparseLoop env0 worldBusy).trace, o.call = .msleep (-2147483296)) ∧
    (∀ o ∈ (playlist_PreparseLoop env0 worldBusy).trace, o.call ≠ .msleep 2147484000) ∧
    pollDelay 2147483 < 1000 ∧ pollDelay 2147483 < pollDelay 2147482 := by
  refine ⟨rfl, rfl, by decide, ?_, by decide, by decide, by decide⟩
  exact ⟨⟨.msleep (-2147483296), Locks.free, none⟩, by decide, rfl⟩

theorem replayBalanced_sound (l0 : Locks) (pi : Option input_thread_t) (cs : List Call) :
    ∀ l : Locks, replayBalanced l0 l cs = true →
      ∀ o ∈ replay l pi cs, LockDiscipline o := by
  induction cs with
  | nil => intro l _ o ho; simp [replay] at ho
  | cons c cs ih =>
    intro l h o ho
    simp only [replay, List.mem_cons] at ho
    rcases ho with ho | ho
    · subst ho
      cases c <;>
        simp only [replayBalanced, Bool.and_eq_true, Bool.not_eq_true'] at h <;>
        refine ⟨fun m hm => ?_, fun m hm => ?_⟩ <;> cases hm <;> exact h.1
    · cases c <;>
        simp only [replayBalanced, Bool.and_eq_true, Bool.not_eq_true'] at h <;>
        first
          | exact ih _ h.2 o ho
          | exact ih _ h o ho

/-- The primary worker, entered with no mutex held, locks only mutexes it does
not hold, unlocks only mutexes it holds, and ends with no mutex held. -/
theorem PreparseLoop_balanced (env : Env) (w : World) (hfree : w.locks = Locks.free) :
    (playlist_PreparseLoop env w).locks = Locks.free ∧
    ∃ evs : List Obs, (playlist_PreparseLoop env w).trace = w.trace ++ evs ∧
      ∀ o ∈ evs, LockDiscipline o := by
  constructor
  · cases h : w.pl.pp_waiting with
    | nil =>
      unfold playlist_PreparseLoop
      simp only [lock_pl, h]
      simp [hfree, Locks.free, Locks.set]
    | cons hd rest =>
      cases hd with
      | none =>
        unfold playlist_PreparseLoop
        simp only [lock_pl, h]
        simp [PL_LOCK, PL_UNLOCK, hfree, Locks.free, Locks.set]
      | some p =>
        unfold playlist_PreparseLoop
        simp only [lock_pl, h]
        cases hb : schemeCheck (w.items p).psz_uri <;>
          simp [hb, PL_LOCK, PL_UNLOCK, hfree, Locks.free, Locks.set]
  · cases h : w.pl.pp_waiting with
    | nil =>
      obtain ⟨-, -, htr⟩ := PreparseLoop_empty env w h
      exact ⟨_, htr, replayBalanced_sound Locks.free _ _ _ (by rw [hfree]; rfl)⟩
    | cons hd rest =>
      cases hd with
      | none =>
        obtain ⟨-, -, -, htr⟩ := PreparseLoop_null env w rest h
        exact ⟨_, htr, replayBalanced_sound Locks.free _ _ _ (by rw [hfree]; rfl)⟩
      | some p =>
        obtain ⟨-, -, -, -, -, htr⟩ := PreparseLoop_head env w p rest h
        refine ⟨_, htr, replayBalanced_sound Locks.free _ _ _ ?_⟩
        rw [hfree]
        cases schemeCheck (w.items p).psz_uri <;> rfl

/-- The secondary worker, entered with no mutex held on a queue that is empty
or starts with a non-NULL entry, locks only mutexes it does not hold and
unlocks only mutexes it holds. -/
theorem SecondaryPreparseLoop_balanced (env : Env) (w : World)
    (hfree : w.locks = Locks.free)
    (hq : ∀ (b : Bool) (rest : List preparse_item_t), w.pl.p_waiting ≠ ⟨none, b⟩ :: rest) :
    ∃ evs : List Obs, (playlist_SecondaryPreparseLoop env w).trace = w.trace ++ evs ∧
      ∀ o ∈ evs, LockDiscipline o := by
  cases h : w.pl.p_waiting with
  | nil =>
    obtain ⟨-, htr⟩ := SecondaryPreparseLoop_empty env w h
    exact ⟨_, htr, replayBalanced_sound Locks.free _ _ _ (by rw [hfree]; rfl)⟩
  | cons hd rest =>
    obtain ⟨p_item, b⟩ := hd
    cases p_item with
    | none => exact absurd h (hq b rest)
    | some p =>
      obtain ⟨i_id, -, htr⟩ := SecondaryPreparseLoop_head env w p b rest h
      refine ⟨_, htr, replayBalanced_sound Locks.free _ _ _ ?_⟩
      rw [hfree]
      cases b <;> rfl

theorem GcObs_discipline (w : World) (o : Obs) (h : GcObs w o)
    (hl : w.locks.gc_lock = false) : LockDiscipline o := by
  obtain ⟨_, ⟨hc, hh⟩ | ⟨hh, hc | ⟨p, hc | ⟨_, _, hc | hc | hc⟩⟩⟩⟩ := h
  · refine ⟨fun m hm => ?_, fun m hm => ?_⟩
    · rw [hc] at hm; cases hm; rw [hh]; exact hl
    · rw [hc] at hm; cases hm
  · refine ⟨fun m hm => ?_, fun m hm => ?_⟩
    · rw [hc] at hm; cases hm
    · rw [hc] at hm; cases hm; rw [hh]; rfl
  all_goals
    refine ⟨fun m hm => ?_, fun m hm => ?_⟩ <;> rw [hc] at hm <;> cases hm

theorem SweepObs_discipline (w : World) (o : Obs) (h : SweepObs w o)
    (hl : w.locks = Locks.free.set .object_lock true) : LockDiscipline o := by
  obtain ⟨_, ⟨p, hc, _⟩ | ⟨hc, hh⟩ | ⟨l, hu, ⟨hc, hh⟩ | ⟨hc, hh⟩⟩ | ⟨w1, hg, hu, _⟩⟩ := h
  · refine ⟨fun m hm => ?_, fun m hm => ?_⟩ <;> rw [hc] at hm <;> cases hm
  · refine ⟨fun m hm => ?_, fun m hm => ?_⟩
    · rw [hc] at hm; cases hm
    · rw [hc] at hm; cases hm; rw [hh, hl]; rfl
  · refine ⟨fun m hm => ?_, fun m hm => ?_⟩
    · rw [hc] at hm; cases hm; rw [hh]
      rcases hu with h | h <;> rw [h, hl] <;> rfl
    · rw [hc] at hm; cases hm
  · refine ⟨fun m hm => ?_, fun m hm => ?_⟩
    · rw [hc] at hm; cases hm
    · rw [hc] at hm; cases hm; rw [hh]
      rcases hu with h | h <;> rw [h, hl] <;> rfl
  · refine GcObs_discipline w1 o hg ?_
    rcases hu with h | h <;> rw [h, hl] <;> rfl

/-- C13: on a secondary queue whose head entry is NULL, entered with no mutex
held, `playlist_SecondaryPreparseLoop` calls `vlc_mutex_unlock` on the engine
lock (the `PL_UNLOCK` of line 551) although it does not hold it and never
locked it. -/
theorem C13_secondary_unlocks_engine_lock :
    worldNullSecondary.locks = Locks.free ∧
    worldNullSecondary.pl.p_waiting = [⟨none, false⟩] ∧
    (playlist_SecondaryPreparseLoop env0 worldNullSecondary).trace.map (fun o => o.call) =
      [.vlc_mutex_lock .secondary_lock, .vlc_mutex_unlock .secondary_lock,
        .vlc_mutex_unlock .object_lock] ∧
    (∃ o ∈ (playlist_SecondaryPreparseLoop env0 worldNullSecondary).trace,
      o.call = .vlc_mutex_unlock .object_lock ∧ o.held.get .object_lock = false) ∧
    (∀ o ∈ (playlist_SecondaryPreparseLoop env0 worldNullSecondary).trace,
      o.call ≠ .vlc_mutex_lock .object_lock) := by
  refine ⟨rfl, rfl, by decide, ?_, by decide⟩
  exact ⟨⟨.vlc_mutex_unlock .object_lock, Locks.free, none⟩, by decide, rfl, rfl⟩

theorem notLock_discipline (o : Obs) (h1 : ∀ m : Mutex, o.call ≠ .vlc_mutex_lock m)
    (h2 : ∀ m : Mutex, o.call ≠ .vlc_mutex_unlock m) : LockDiscipline o :=
  ⟨fun m hm => absurd hm (h1 m), fun m hm => absurd hm (h2 m)⟩

/-- A step of the control loop entered with no mutex held locks only mutexes
it does not hold, unlocks only mutexes it holds, and ends with no mutex
held. -/
theorem MainLoop_balanced (env : Env) (fuel : Nat) (w : World)
    (hfuel : w.objects.length < fuel) (hfree : w.locks = Locks.free) :
    ∃ (w1 : World) (evs : List Obs), (playlist_MainLoop env fuel w).final = some w1 ∧
      w1.trace = w.trace ++ evs ∧ (∀ o ∈ evs, LockDiscipline o) ∧
      w1.locks = Locks.free := by
  obtain ⟨evs0, ht0, hev0, hl0, ho0, -, -, -, -⟩ := requestCheck_run env (PL_LOCK w)
  unfold playlist_MainLoop
  simp only []
  generalize requestCheck env (PL_LOCK w) = w0 at *
  have hfuel0 : w0.objects.length < fuel := by rw [ho0]; exact hfuel
  have hlk0 : w0.locks = Locks.free.set .object_lock true := by rw [hl0, ← hfree]; rfl
  have hun : w0.locks.set .object_lock false = Locks.free := by rw [hlk0]; rfl
  have hunl : LockDiscipline ⟨.vlc_mutex_unlock .object_lock, w0.locks, w0.pl.p_input⟩ := by
    refine ⟨fun m hm => (by cases hm), fun m hm => ?_⟩
    cases hm; rw [hlk0]; rfl
  have key : ∀ (r : Run) (w1 : World) (evs : List Obs), r.final = some w1 →
      w1.trace = w0.trace ++ evs → (∀ o ∈ evs, LockDiscipline o) → w1.locks = Locks.free →
      ∃ (w1 : World) (evs : List Obs), r.final = some w1 ∧
        w1.trace = w.trace ++ evs ∧ (∀ o ∈ evs, LockDiscipline o) ∧
        w1.locks = Locks.free := by
    intro r w1 evs h1 h2 h3 h4
    refine ⟨w1, [⟨.vlc_mutex_lock .object_lock, w.locks, w.pl.p_input⟩] ++ evs0 ++ evs, h1,
      by rw [h2, ht0]; simp [PL_LOCK], ?_, h4⟩
    intro o ho
    simp only [List.mem_append, List.mem_singleton] at ho
    rcases ho with (ho | ho) | ho
    · subst ho
      refine ⟨fun m hm => ?_, fun m hm => by cases hm⟩
      cases hm; rw [hfree]; rfl
    · obtain ⟨p, rfl⟩ := hev0 o ho
      exact notLock_discipline _ (by simp) (by simp)
    · exact h3 o ho
  split
  case h_2 hp =>
    split
    · obtain ⟨w1, evs, e, htr, hev, hlk, -⟩ := MainLoop_start_run env w.pl.play_and_exit w0
      refine key (MainLoop_start env w.pl.play_and_exit w0) w1 evs (by rw [e]; rfl) htr ?_
        (by rw [hlk, hun])
      intro o ho
      obtain ⟨hh, hc⟩ := hev o ho
      rcases hc with h | h | h | ⟨i, h, _⟩ | h
      · exact notLock_discipline _ (by simp [h]) (by simp [h])
      · exact notLock_discipline _ (by simp [h]) (by simp [h])
      · exact notLock_discipline _ (by simp [h]) (by simp [h])
      · exact notLock_discipline _ (by simp [h]) (by simp [h])
      · refine ⟨fun m hm => (by rw [h] at hm; cases hm), fun m hm => ?_⟩
        rw [h] at hm; cases hm; rw [hh, hlk0]; rfl
    · obtain ⟨w1, evs, e, htr, hev, -, -, -, -, hu, -⟩ := MainLoop_idle_run env fuel w0 hfuel0
      refine key (MainLoop_idle env fuel w0) w1 evs (by rw [e]; rfl) htr
        (fun o ho => SweepObs_discipline w0 o (hev o ho) hlk0) ?_
      rcases hu with h | h <;> rw [h, hlk0] <;> rfl
  case h_1 p hp =>
    split
    · obtain ⟨w1, rest, e, htr, hrest, -, hlk, -⟩ := MainLoop_dead_run env p w0
      refine key (MainLoop_dead env p w0) w1 _ e (by rw [htr, List.append_assoc]) ?_
        (by rw [hlk, hun])
      intro o ho
      simp only [List.mem_append, List.mem_cons, List.not_mem_nil, or_false] at ho
      rcases ho with (ho | ho | ho | ho) | ho
      · subst ho
        refine ⟨fun m hm => (by cases hm), fun m hm => ?_⟩
        cases hm; rw [hlk0]; rfl
      · subst ho; exact notLock_discipline _ (by simp) (by simp)
      · subst ho; exact notLock_discipline _ (by simp) (by simp)
      · subst ho; exact notLock_discipline _ (by simp) (by simp)
      · rcases (hrest o ho).2.2 with ⟨i, h⟩ | ⟨v, h⟩ <;>
          exact notLock_discipline _ (by simp [h]) (by simp [h])
    · split
      · exact key _ (PL_UNLOCK w0) [⟨.vlc_mutex_unlock .object_lock, w0.locks, w0.pl.p_input⟩]
          rfl rfl (by intro o ho; simp only [List.mem_singleton] at ho; subst ho; exact hunl)
          hun
      · split
        · refine key _ (PL_UNLOCK (input_StopThread env p w0))
            [⟨.input_StopThread p, w0.locks, w0.pl.p_input⟩,
              ⟨.vlc_mutex_unlock .object_lock, w0.locks, some (env.input_StopThread p)⟩]
            rfl (by simp [PL_UNLOCK, input_StopThread]) ?_ hun
          intro o ho
          simp only [List.mem_cons, List.mem_singleton, List.not_mem_nil, or_false] at ho
          rcases ho with ho | ho
          · subst ho; exact notLock_discipline _ (by simp) (by simp)
          · subst ho
            refine ⟨fun m hm => (by cases hm), fun m hm => ?_⟩
            cases hm; rw [hlk0]; rfl
        · split
          · obtain ⟨w1, evs, e, htr, hev, -, -, -, -, hu, -⟩ :=
              MainLoop_running_run fuel w0 hfuel0
            refine key (MainLoop_running fuel w0) w1 evs (by rw [e]; rfl) htr
              (fun o ho => SweepObs_discipline w0 o (hev o ho) hlk0) ?_
            rcases hu with h | h <;> rw [h, hlk0] <;> rfl
          · exact key _ (PL_UNLOCK w0)
              [⟨.vlc_mutex_unlock .object_lock, w0.locks, w0.pl.p_input⟩]
              rfl rfl
              (by intro o ho; simp only [List.mem_singleton] at ho; subst ho; exact hunl) hun

/-- The sleep of a wake-up of the primary worker: none on an empty queue,
otherwise one `msleep` of `pollDelay activity`, which is
`(max(activity, 0) + 1) * 1000` as long as the product fits a C `int`
(`pollDelay_in_range`). -/
theorem PreparseLoop_sleep (env : Env) (w : World) :
    ∃ evs : List Obs, (playlist_PreparseLoop env w).trace = w.trace ++ evs ∧
      (w.pl.pp_waiting = [] → ∀ o ∈ evs, ∀ d : Int, o.call ≠ .msleep d) ∧
      (w.pl.pp_waiting ≠ [] →
        ∀ d : Int, (∃ o ∈ evs, o.call = .msleep d) ↔ d = pollDelay w.pl.activity) := by
  cases h : w.pl.pp_waiting with
  | nil =>
    obtain ⟨-, -, htr⟩ := PreparseLoop_empty env w h
    refine ⟨_, htr, ?_, fun hne => absurd rfl hne⟩
    intro _ o ho d hc
    have := (mem_replay _ _ _ (.msleep d)).mp ⟨o, ho, hc⟩
    simp at this
  | cons hd rest =>
    cases hd with
    | none =>
      obtain ⟨-, -, -, htr⟩ := PreparseLoop_null env w rest h
      refine ⟨_, htr, fun he => (by cases he), fun _ d => ?_⟩
      rw [mem_replay]
      simp
    | some p =>
      obtain ⟨-, -, -, -, -, htr⟩ := PreparseLoop_head env w p rest h
      refine ⟨_, htr, fun he => (by cases he), fun _ d => ?_⟩
      rw [mem_replay]
      cases schemeCheck (w.items p).psz_uri <;> simp [preparseCalls]

theorem MainLoop_dead_frame (env : Env) (p : input_thread_t) (w w1 : World)
    (h : MainLoop_dead env p w = .returned w1) :
    w1.playlist_items = w.playlist_items := by
  unfold MainLoop_dead at h
  simp only [PL_UNLOCK, vlc_object_detach, call_pl, unlock_pl, call_playlist_items,
      unlock_playlist_items] at h
  split at h
  · cases h
  · split at h
    · split at h <;> cases h <;> rfl
    · cases h; rfl

theorem request_ext (a b : request_t) (h1 : a.b_request = b.b_request)
    (h2 : a.i_status = b.i_status) (h3 : a.p_item = b.p_item) : a = b := by
  cases a; cases b; simp_all

/-- C11: a step of the control loop that finds the current session dead (the
status item is the entry the session plays) returns; it sets both destroy
dates to 0 and takes exactly one `DEFAULT_INPUT_ACTIVITY` off the activity
(the difference fits a C `int`), notifying the new value.  If the status item
carries the removal flag, it is deleted, once, `status.p_item` becomes NULL
and so does a request target that pointed at it, so that neither field refers
to it afterwards; if it does not carry the flag, nothing is deleted and
status, request and the items stay as they are.  A request that targets
another entry stays as it is in both cases. -/
theorem C11_dead_session_effects (env : Env) (fuel : Nat) (w : World)
    (p : input_thread_t) (item : Nat)
    (hp : checkedInput env w = some p) (hd : p.b_dead = true)
    (hitem : w.pl.status.p_item = some item)
    (hlo : -2147483648 ≤ w.pl.activity - env.DEFAULT_INPUT_ACTIVITY)
    (hhi : w.pl.activity - env.DEFAULT_INPUT_ACTIVITY < 2147483648) :
    ∃ (w1 : World) (evs : List Obs), playlist_MainLoop env fuel w = .returned w1 ∧
      w1.trace = w.trace ++ evs ∧
      w1.pl.i_vout_destroyed_date = 0 ∧ w1.pl.i_sout_destroyed_date = 0 ∧
      w1.pl.activity = w.pl.activity - env.DEFAULT_INPUT_ACTIVITY ∧
      (∃ o ∈ evs, o.call =
        .var_SetInteger_activity (w.pl.activity - env.DEFAULT_INPUT_ACTIVITY)) ∧
      w1.pl.status.i_status = w.pl.status.i_status ∧
      w1.playlist_items = w.playlist_items ∧
      ((∃ o ∈ evs, o.call.isItemDelete = true) ↔ removalFlagged env w item) ∧
      (removalFlagged env w item →
        (evs.map (fun o => o.call)).filter Call.isItemDelete = [.playlist_ItemDelete item] ∧
        w1.pl.status.p_item = none ∧
        w1.pl.request.p_item =
          (if w.pl.request.p_item = some item then none else w.pl.request.p_item) ∧
        w1.pl.request.p_item ≠ some item) ∧
      (¬ removalFlagged env w item →
        (evs.map (fun o => o.call)).filter Call.isItemDelete = [] ∧
        w1.pl.status = w.pl.status ∧ w1.pl.request = w.pl.request) ∧
      (w.pl.request.p_item ≠ some item → w1.pl.request = w.pl.request) := by
  obtain ⟨evs0, ht0, hev0, -, -, hpl0, hpi0, -, -⟩ := requestCheck_run env (PL_LOCK w)
  unfold checkedInput at hp
  unfold playlist_MainLoop
  simp only []
  generalize requestCheck env (PL_LOCK w) = w0 at *
  rw [hp]
  simp only []
  rw [if_pos hd]
  have hst : w0.pl.status = w.pl.status := by rw [hpl0]; rfl
  have hrq : w0.pl.request = w.pl.request := by rw [hpl0]; rfl
  have hac : w0.pl.activity = w.pl.activity := by rw [hpl0]; rfl
  have hpi : w0.playlist_items = w.playlist_items := hpi0
  have hfl : removalFlagged env w0 item ↔ removalFlagged env w item := by
    unfold removalFlagged; rw [hpi]
  have hw := wrap32_id _ hlo hhi
  obtain ⟨w1, evs, e, htr, hv, hs, ha, ⟨oa, hoa, hoc⟩, hsi, hrb, hri, hyes, hno⟩ :=
    MainLoop_dead_effects env p w0 item (by rw [hst]; exact hitem)
  have hfr := MainLoop_dead_frame env p w0 w1 e
  rw [hac, hw] at ha hoc
  rw [hst] at hsi
  rw [hrq] at hrb hri
  have hcalls : ((([⟨.vlc_mutex_lock .object_lock, w.locks, w.pl.p_input⟩] ++ evs0 ++
      evs : List Obs).map (fun o => o.call)).filter Call.isItemDelete) =
      (evs.map (fun o => o.call)).filter Call.isItemDelete := by
    have h0 : (evs0.map (fun o => o.call)).filter Call.isItemDelete = [] := by
      rw [List.filter_eq_nil_iff]
      intro c hc
      obtain ⟨o, ho, rfl⟩ := List.mem_map.mp hc
      obtain ⟨q, rfl⟩ := hev0 o ho
      simp [Call.isItemDelete]
    simp [List.filter_append, h0, Call.isItemDelete]
  have hmem : ∀ l : List Obs, (∃ o ∈ l, o.call.isItemDelete = true) ↔
      (l.map (fun o => o.call)).filter Call.isItemDelete ≠ [] := by
    intro l
    rw [Ne, List.filter_eq_nil_iff]
    constructor
    · rintro ⟨o, ho, hc⟩ hall
      exact hall o.call (List.mem_map.mpr ⟨o, ho, rfl⟩) hc
    · intro hn
      by_contra hc
      apply hn
      intro c hcm hci
      obtain ⟨o, ho, rfl⟩ := List.mem_map.mp hcm
      exact hc ⟨o, ho, hci⟩
  refine ⟨w1, [⟨.vlc_mutex_lock .object_lock, w.locks, w.pl.p_input⟩] ++ evs0 ++ evs, e,
    by rw [htr, ht0]; simp [PL_LOCK], hv, hs, ha, ⟨oa, by simp [hoa], hoc⟩, hsi,
    by rw [hfr, hpi], ?_, ?_, ?_, ?_⟩
  · rw [hmem, hcalls]
    constructor
    · intro hne
      by_contra hnf
      exact hne (hno (fun h1 => hnf (hfl.mp h1))).1
    · intro hf
      rw [(hyes (hfl.mpr hf)).1]
      simp
  · intro h
    obtain ⟨a, b, c⟩ := hyes (hfl.mpr h)
    rw [hrq] at c
    refine ⟨by rw [hcalls]; exact a, b, c, ?_⟩
    rw [c]
    split
    · simp
    · assumption
  · intro h
    obtain ⟨a, b, c⟩ := hno (fun h1 => h (hfl.mp h1))
    rw [hrq] at c
    refine ⟨by rw [hcalls]; exact a, ?_, request_ext _ _ hrb hri c⟩
    cases h1 : w1.pl.status
    cases h2 : w.pl.status
    rw [h1] at hsi b
    rw [h2] at hsi hitem
    simp only [] at hsi b hitem
    rw [hsi, b, hitem]
  · intro hne
    refine request_ext _ _ hrb hri ?_
    by_cases hf : removalFlagged env w item
    · obtain ⟨-, -, c⟩ := hyes (hfl.mpr hf)
      rw [hrq] at c
      rw [c, if_neg hne]
    · obtain ⟨-, -, c⟩ := hno (fun h1 => hf (hfl.mp h1))
      rw [c, hrq]

theorem C11_dead_session_effects_witness :
    removalFlagged env0 worldDeadFlagged 7 ∧
    worldDeadFlagged.pl.request.p_item = some 7 ∧
    ∃ (w1 : World) (evs : List Obs),
      playlist_MainLoop env0 2 worldDeadFlagged = .returned w1 ∧
      w1.trace = worldDeadFlagged.trace ++ evs ∧
      w1.pl.i_vout_destroyed_date = 0 ∧ w1.pl.i_sout_destroyed_date = 0 ∧
      w1.pl.activity = worldDeadFlagged.pl.activity - env0.DEFAULT_INPUT_ACTIVITY ∧
      (∃ o ∈ evs, o.call = .var_SetInteger_activity
        (worldDeadFlagged.pl.activity - env0.DEFAULT_INPUT_ACTIVITY)) ∧
      w1.pl.status.i_status = worldDeadFlagged.pl.status.i_status ∧
      w1.playlist_items = worldDeadFlagged.playlist_items ∧
      ((∃ o ∈ evs, o.call.isItemDelete = true) ↔ removalFlagged env0 worldDeadFlagged 7) ∧
      (removalFlagged env0 worldDeadFlagged 7 →
        (evs.map (fun o => o.call)).filter Call.isItemDelete = [.playlist_ItemDelete 7] ∧
        w1.pl.status.p_item = none ∧
        w1.pl.request.p_item =
          (if worldDeadFlagged.pl.request.p_item = some 7 then none
            else worldDeadFlagged.pl.request.p_item) ∧
        w1.pl.request.p_item ≠ some 7) ∧
      (¬ removalFlagged env0 worldDeadFlagged 7 →
        (evs.map (fun o => o.call)).filter Call.isItemDelete = [] ∧
        w1.pl.status = worldDeadFlagged.pl.status ∧
        w1.pl.request = worldDeadFlagged.pl.request) ∧
      (worldDeadFlagged.pl.request.p_item ≠ some 7 →
        w1.pl.request = worldDeadFlagged.pl.request) :=
  ⟨(by unfold removalFlagged; decide), rfl,
    C11_dead_session_effects env0 2 worldDeadFlagged deadInput 7 (by decide) rfl rfl
      (by decide) (by decide)⟩

end Playlist
